import Mathlib

/-!
Verification of the modeldb transform-and-publish pipeline (src/src/sync.ts,
src/src/data-store.ts, src/src/index.ts) against its specification.

JavaScript strings are modelled as Lean `String` / `List Char`; JS string
primitives (`split`, `startsWith`, `substring`, `toLowerCase`, …) are embedded
as explicit `List Char` functions below.  JS numbers are modelled as `ℚ`
(every numeric operation the pipeline performs is a multiplication by
1 000 000, whose stored result is by definition the product, so the exactness
of `ℚ` does not distort any claim).  `undefined` / `null` are modelled as
`Option`, and JS truthiness on the relevant types (`0`, `''`, `null`,
`undefined` are falsy) is expanded in place at each use.
-/

namespace ModelDB

/-- JS `s.split(sep)[0]`: the part of `s` before the first occurrence of the
separator `sep` (the whole of `s` when `sep` does not occur).  `sep` is
assumed non-empty (all call sites pass a literal). -/
def beforeFirst (sep : List Char) : List Char → List Char
  | [] => []
  | c :: rest =>
    if sep.isPrefixOf (c :: rest) then []
    else c :: beforeFirst sep rest

/-- JS `s.includes(pat)` for a non-empty literal `pat`. -/
def hasSubstr (pat : List Char) : List Char → Bool
  | [] => pat.isEmpty
  | c :: rest => pat.isPrefixOf (c :: rest) || hasSubstr pat rest

/-- JS `String.prototype.toLowerCase` restricted to ASCII, character-wise. -/
def toLowerList (s : List Char) : List Char := s.map Char.toLower

/-- Two strings are the same tag up to letter casing. -/
def sameUpToCase (a b : String) : Prop := toLowerList a.data = toLowerList b.data

/-- The alias chain of `transformProviderId` (src/src/sync.ts:366-390), applied
to the already-lower-cased split prefix `lowerProvider`. -/
def providerAlias (lowerProvider : List Char) : String :=
  if lowerProvider = "gemini".data then "google"
  else if lowerProvider = "meta_llama".data then "meta"
  else if lowerProvider = "mistralai".data then "mistral"
  else if lowerProvider = "codestral".data then "mistral"
  else if lowerProvider = "deepseek-ai".data then "deepseek"
  else if lowerProvider = "bedrock_converse".data then "bedrock"
  else if ("vertex_ai".data).isPrefixOf lowerProvider then "vertex"
  else if hasSubstr "codestral".data lowerProvider then "mistral"
  else String.mk lowerProvider

/-- Embeds `provider.split('_ai')[0].split('_')[0].toLowerCase()` (src/src/sync.ts:365). -/
def loweredTag (provider : String) : List Char :=
  toLowerList (beforeFirst ['_'] (beforeFirst ['_', 'a', 'i'] provider.data))

/-- Embeds `transformProviderId` (src/src/sync.ts:364-391). -/
def transformProviderId (provider : String) : String :=
  providerAlias (loweredTag provider)

/-! ## Display-name generation (src/src/sync.ts:8-317)

JS regex replacement is embedded by hand-written scanners.  Every regex the
source applies has the shape of a literal word framed by `\b` boundaries, the
`GPT (\d[\d.]*)` version pattern, or the `(\d+)b\b` size pattern; each gets a
dedicated scanner with JS leftmost-match / continue-after-match semantics
(`\b` is evaluated against the original string, so the scanners carry a flag
recording whether the previously consumed character was a word character). -/
/-- JS regex `\w`: ASCII letter, digit or underscore. -/
def isWordChar (c : Char) : Bool := c.isAlpha || c.isDigit || c = '_'

/-- Character comparison of a regex literal, case-insensitively under flag `i`. -/
def chEq (ci : Bool) (p c : Char) : Bool :=
  if ci then p.toLower == c.toLower else p == c

/-- Does the literal `pat` match a prefix of `s` (mod case when `ci`)? -/
def matchChars (ci : Bool) : List Char → List Char → Bool
  | [], _ => true
  | _ :: _, [] => false
  | p :: ps, c :: cs => chEq ci p c && matchChars ci ps cs

/-- Right word boundary `\b` after a word character: the next character of the
original string (if any) is not a word character. -/
def boundaryOk : List Char → Bool
  | [] => true
  | c :: _ => !isWordChar c

/-- JS `str.replace(re, repl)` for a global regex `\b<word>\b` (optionally with
flag `i`) whose pattern is the literal `p0 :: ps` consisting of word
characters.  `prevW`: whether the previously consumed character of the
original string was a word character (false at the start).  Structured with an
explicit fuel argument (each step consumes at least one character, so fuel
equal to the string length suffices) so that it is structurally recursive and
evaluates inside the kernel. -/
def replaceWordPatF (ci : Bool) (p0 : Char) (ps repl : List Char) :
    Nat → Bool → List Char → List Char
  | 0, _, _ => []
  | _ + 1, _, [] => []
  | fuel + 1, prevW, c :: rest =>
    if !prevW && chEq ci p0 c && matchChars ci ps rest
        && boundaryOk (rest.drop ps.length) then
      repl ++ replaceWordPatF ci p0 ps repl fuel true (rest.drop ps.length)
    else
      c :: replaceWordPatF ci p0 ps repl fuel (isWordChar c) rest

def replaceWordPat (ci : Bool) (p0 : Char) (ps repl : List Char)
    (prevW : Bool) (s : List Char) : List Char :=
  replaceWordPatF ci p0 ps repl s.length prevW s

/-- Greedy `[\d.]*`. -/
def digitDotRun (s : List Char) : List Char := s.takeWhile (fun c => c.isDigit || c == '.')

/-- JS `str.replace(/\bGPT (\d[\d.]*)/g, 'GPT-$1')` (src/src/sync.ts:224),
with the same fuel scheme as `replaceWordPatF`. -/
def replaceGptNumF : Nat → Bool → List Char → List Char
  | 0, _, _ => []
  | _ + 1, _, [] => []
  | fuel + 1, prevW, c :: rest =>
    if !prevW && c == 'G' && matchChars false ['P', 'T', ' '] rest
        && ((rest.drop 3).headD ' ').isDigit then
      let d := rest.drop 3
      let run := digitDotRun d
      ('G' :: 'P' :: 'T' :: '-' :: run) ++
        replaceGptNumF fuel (isWordChar (run.getLastD ' ')) (d.drop run.length)
    else
      c :: replaceGptNumF fuel (isWordChar c) rest

def replaceGptNum (prevW : Bool) (s : List Char) : List Char :=
  replaceGptNumF s.length prevW s

/-- JS `str.replace(/(\d+)b\b/gi, '$1B')` (src/src/sync.ts:231).  The `\d+` is
taken greedily; shrinking it can never help, because the next pattern
character `b` is not a digit.  Same fuel scheme as `replaceWordPatF`. -/
def replaceNumBF : Nat → List Char → List Char
  | 0, _ => []
  | _ + 1, [] => []
  | fuel + 1, c :: rest =>
    if c.isDigit then
      let run := c :: rest.takeWhile Char.isDigit
      match rest.drop (run.length - 1) with
      | b :: tail =>
        if (b == 'b' || b == 'B') && boundaryOk tail then
          (run ++ ['B']) ++ replaceNumBF fuel tail
        else c :: replaceNumBF fuel rest
      | [] => c :: replaceNumBF fuel rest
    else c :: replaceNumBF fuel rest

def replaceNumB (s : List Char) : List Char :=
  replaceNumBF s.length s

/-- JS `s.split(sep)` for a one-character separator. -/
def splitOnChar (sep : Char) : List Char → List (List Char)
  | [] => [[]]
  | c :: rest =>
    if c = sep then [] :: splitOnChar sep rest
    else
      match splitOnChar sep rest with
      | s :: rs => (c :: s) :: rs
      | [] => [[c]]

/-- JS `s.split(/[-_]/)`. -/
def splitDashUnderscore : List Char → List (List Char)
  | [] => [[]]
  | c :: rest =>
    if c = '-' || c = '_' then [] :: splitDashUnderscore rest
    else
      match splitDashUnderscore rest with
      | s :: rs => (c :: s) :: rs
      | [] => [[c]]

/-- JS `word.charAt(0).toUpperCase() + word.slice(1)`. -/
def capFirst : List Char → List Char
  | [] => []
  | c :: rest => c.toUpper :: rest

/-- JS `word.charAt(0).toUpperCase() + word.slice(1).toLowerCase()`. -/
def capFirstLowerRest : List Char → List Char
  | [] => []
  | c :: rest => c.toUpper :: toLowerList rest

/-- Embeds `smartTitleCase` (src/src/sync.ts:216-233): split on hyphens, capitalize
each segment, join with spaces, then the fixed chain of regex touch-ups. -/
def smartTitleCase (name : List Char) : List Char :=
  let joined := List.intercalate [' '] ((splitOnChar '-' name).map capFirst)
  let s1 := replaceWordPat true 'G' "pt".data "GPT".data false joined
  let s2 := replaceGptNum false s1
  let s3 := replaceWordPat true 'L' "lama".data "Llama".data false s2
  let s4 := replaceWordPat false 'A' "i".data "AI".data false s3
  let s5 := replaceWordPat false 'A' "pi".data "API".data false s4
  let s6 := replaceWordPat false 'H' "d".data "HD".data false s5
  let s7 := replaceWordPat false 'T' "ts".data "TTS".data false s6
  let s8 := replaceWordPat false 'S' "tt".data "STT".data false s7
  replaceNumB s8

/-- The curated `DISPLAY_NAMES` table (src/src/sync.ts:13-106), in source
order.  JS object-literal property lookup is modelled by `findName`. -/
def DISPLAY_NAMES : List (String × String) := [
  ("gpt-4o", "GPT-4o"),
  ("gpt-4o-mini", "GPT-4o mini"),
  ("gpt-4.1-mini", "GPT-4.1 mini"),
  ("gpt-4.1-nano", "GPT-4.1 nano"),
  ("o4-mini", "o4 mini"),
  ("o3-mini", "o3 mini"),
  ("o3-pro", "o3 Pro"),
  ("o3", "o3"),
  ("o1", "o1"),
  ("o1-mini", "o1 mini"),
  ("o1-pro", "o1 Pro"),
  ("o1-preview", "o1 Preview"),
  ("chatgpt-4o-latest", "ChatGPT-4o"),
  ("gpt-3.5-turbo", "GPT 3.5T"),
  ("gpt-3.5-turbo-instruct", "GPT 3.5T Instruct"),
  ("gpt-3.5-turbo-16k", "GPT 3.5T 16k"),
  ("claude-sonnet-4-20250514", "Claude 4 Sonnet"),
  ("claude-opus-4-20250514", "Claude 4 Opus"),
  ("claude-3-7-sonnet-latest", "Claude 3.7 Sonnet"),
  ("claude-3-5-haiku-latest", "Claude 3.5 Haiku"),
  ("claude-3-5-sonnet-latest", "Claude 3.5 Sonnet"),
  ("claude-3-opus-latest", "Claude 3 Opus"),
  ("claude-3-sonnet-20240229", "Claude 3 Sonnet"),
  ("claude-3-haiku-20240307", "Claude 3 Haiku"),
  ("claude-instant-1.2", "Claude Instant 1.2"),
  ("claude-instant-1", "Claude Instant 1"),
  ("gemini-2.0-flash", "Gemini 2.0 Flash"),
  ("gemini-2.0-flash-lite", "Gemini 2.0 Flash-Lite"),
  ("gemini-1.5-flash-8b", "Gemini 1.5 Flash-8B"),
  ("llama-4-maverick-17b-128e-instruct", "Llama 4 Maverick Instruct (17Bx128E)"),
  ("llama-4-scout-17b-16e-instruct", "Llama 4 Scout Instruct (17Bx16E)"),
  ("llama-3-70b-chat-hf", "Llama 3 70B Instruct Reference"),
  ("llama-3-8b-chat-hf", "Llama 3 8B Instruct Reference"),
  ("llama-2-70b-chat", "LLaMA 2 70b Chat"),
  ("llama3.3-70b", "Llama 3.3 70B"),
  ("llama3.2-3b", "Llama 3.2 3B"),
  ("llama3.2-1b", "Llama 3.2 1B"),
  ("llama3.1-70b", "Llama 3.1 70B"),
  ("llama3.1-8b", "Llama 3.1 8B"),
  ("llama3-70b", "Llama 3 70B"),
  ("llama3-8b", "Llama 3 8B"),
  ("mistral-large-latest", "Mistral Large"),
  ("pixtral-large-latest", "Pixtral Large"),
  ("mistral-medium-latest", "Mistral Medium 3"),
  ("mistral-small-latest", "Mistral Small"),
  ("codestral-latest", "Codestral"),
  ("ministral-8b-latest", "Ministral 8B"),
  ("ministral-3b-latest", "Ministral 3B"),
  ("open-mistral-nemo", "Mistral NeMo"),
  ("open-codestral-mamba", "Codestral Mamba"),
  ("open-mixtral-8x22b", "Mixtral 8x22B"),
  ("mistral-7b-instruct-v0.1", "Mistral (7B) Instruct"),
  ("mixtral-8x7b", "Mixtral 8x7B"),
  ("gemma-2-27b-it", "Gemma-2 Instruct (27B)"),
  ("gemma-2-9b-it", "Gemma-2 Instruct (9B)"),
  ("gemma-2b-it", "Gemma Instruct (2B)"),
  ("deepseek-v3", "DeepSeek V3"),
  ("deepseek-r1", "DeepSeek R1"),
  ("deepseek-llm-67b-chat", "DeepSeek LLM Chat (67B)"),
  ("qwq-32b", "Qwen QwQ 32B"),
  ("qwen-2-vl-72b-instruct", "Qwen-2VL (72B) Instruct"),
  ("qwq-32b-preview", "Qwen QwQ 32B Preview"),
  ("wizardlm-2-8x22b", "WizardLM-2 (8x22B)"),
  ("wizardlm-2-7b", "WizardLM-2 7B"),
  ("dbrx-instruct", "DBRX Instruct"),
  ("nous-hermes-2-mixtral-8x7b-dpo", "Nous Hermes 2 - Mixtral 8x7B-DPO"),
  ("nous-hermes-llama2-13b", "Nous: Hermes 13B"),
  ("mythomax-l2-13b", "MythoMax-L2 (13B)"),
  ("nova-pro-v1:0", "Nova Pro"),
  ("nova-micro-v1:0", "Nova Micro"),
  ("nova-lite-v1:0", "Nova Lite"),
  ("command-r-plus-v1:0", "Command R+"),
  ("command-r-v1:0", "Command R")]

/-- The curated `PROVIDER_NAMES` table (src/src/sync.ts:108-158). -/
def PROVIDER_NAMES : List (String × String) := [
  ("openai", "OpenAI"),
  ("anthropic", "Anthropic"),
  ("google", "Google"),
  ("meta", "Meta"),
  ("mistral", "Mistral AI"),
  ("xai", "xAI"),
  ("deepseek", "DeepSeek"),
  ("bedrock", "AWS Bedrock"),
  ("aws", "AWS"),
  ("azure", "Microsoft Azure"),
  ("databricks", "Databricks"),
  ("cloudflare", "Cloudflare"),
  ("together", "Together AI"),
  ("fireworks", "Fireworks AI"),
  ("anyscale", "Anyscale"),
  ("replicate", "Replicate"),
  ("sagemaker", "AWS Sage Maker"),
  ("snowflake", "Snowflake"),
  ("openrouter", "OpenRouter"),
  ("vertex", "Google Vertex AI"),
  ("cohere", "Cohere"),
  ("ai21", "AI21 Labs"),
  ("huggingface", "Hugging Face"),
  ("perplexity", "Perplexity AI"),
  ("groq", "Groq"),
  ("deepinfra", "DeepInfra"),
  ("voyage", "Voyage AI"),
  ("nvidia", "NVIDIA"),
  ("qwen", "Alibaba Cloud"),
  ("elevenlabs", "ElevenLabs"),
  ("deepgram", "Deepgram"),
  ("moonshot", "Moonshot AI"),
  ("watsonx", "IBM Watsonx"),
  ("assemblyai", "AssemblyAI"),
  ("sonar", "Sonar"),
  ("palm", "Palm AI"),
  ("nous", "Nous Research"),
  ("nousresearch", "Nous Research"),
  ("magistral", "Magistral AI"),
  ("devstral", "Devstral"),
  ("minimax", "MiniMax"),
  ("zhipu", "Zhipu AI")]

/-- JS object property lookup `TABLE[key]` over a literal table with distinct
keys (returns `undefined`, i.e. `none`, when the key is absent). -/
def findName : List (String × String) → String → Option String
  | [], _ => none
  | (k, v) :: rest, key => if k = key then some v else findName rest key

/-- Embeds `MONTH_NAMES` (src/src/sync.ts:160-173). -/
def MONTH_NAMES : List String :=
  ["Jan", "Feb", "Mar", "Apr", "May", "Jun", "Jul", "Aug", "Sep", "Oct", "Nov", "Dec"]

/-- One `[-_]?` step of the date regex: consume a single separator character
when present.  (The `?` is greedy; not consuming a present separator can
never rescue a failed match because the following token is `\d`.) -/
def stripSep : List Char → List Char
  | [] => []
  | c :: rest => if c = '-' || c = '_' then rest else c :: rest

/-- Match the entire remainder against `[-_]?(\d{4})[-_]?(\d{2})[-_]?(\d{2})$`,
returning the captured year and month digit groups. -/
def matchFullDateWhole (r : List Char) : Option (List Char × List Char) :=
  match stripSep r with
  | y1 :: y2 :: y3 :: y4 :: rest =>
    if y1.isDigit && y2.isDigit && y3.isDigit && y4.isDigit then
      match stripSep rest with
      | m1 :: m2 :: rest2 =>
        if m1.isDigit && m2.isDigit then
          match stripSep rest2 with
          | [d1, d2] =>
            if d1.isDigit && d2.isDigit then some ([y1, y2, y3, y4], [m1, m2]) else none
          | _ => none
        else none
      | _ => none
    else none
  | _ => none

/-- Leftmost match of `DATE_PATTERN` (src/src/sync.ts:176): returns the text
before the match plus the captured year/month groups. -/
def findFullDate : List Char → Option (List Char × List Char × List Char)
  | [] => none
  | c :: rest =>
    match matchFullDateWhole (c :: rest) with
    | some (y, m) => some ([], y, m)
    | none =>
      match findFullDate rest with
      | some (p, y, m) => some (c :: p, y, m)
      | none => none

/-- Match the entire remainder against `[-_](\d{2})(\d{2})$`. -/
def matchShortDateWhole : List Char → Option (List Char × List Char)
  | [s, a, b, c, d] =>
    if (s == '-' || s == '_') && a.isDigit && b.isDigit && c.isDigit && d.isDigit then
      some ([a, b], [c, d])
    else none
  | _ => none

/-- Leftmost match of `SHORT_DATE_PATTERN` (src/src/sync.ts:179). -/
def findShortDate : List Char → Option (List Char × List Char × List Char)
  | [] => none
  | c :: rest =>
    match matchShortDateWhole (c :: rest) with
    | some (y, m) => some ([], y, m)
    | none =>
      match findShortDate rest with
      | some (p, y, m) => some (c :: p, y, m)
      | none => none

/-- Embeds `Number.parseInt` on a two-digit group. -/
def twoDigitVal : List Char → Nat
  | [a, b] => 10 * (a.toNat - 48) + (b.toNat - 48)
  | _ => 0

/-- The formatted suffix `(${Mon} ${year})`. -/
def formatDateSuffix (mon : String) (year : List Char) : List Char :=
  ('(' :: mon.data) ++ (' ' :: year) ++ [')']

/-- The short-pattern half of `extractDateSuffix` (src/src/sync.ts:197-207). -/
def extractShort (modelId : List Char) : List Char × List Char :=
  match findShortDate modelId with
  | some (pre, yy, mm) =>
    let mv := twoDigitVal mm
    if 1 ≤ mv ∧ mv ≤ 12 then
      (pre, formatDateSuffix (MONTH_NAMES.getD (mv - 1) "") ('2' :: '0' :: yy))
    else (modelId, [])
  | none => (modelId, [])

/-- Embeds `extractDateSuffix` (src/src/sync.ts:185-210): try the full date pattern;
on no match or an out-of-range month fall through to the short pattern.
JS `monthIndex >= 0 && monthIndex < 12` on `parseInt(month) - 1` is the
`1 ≤ mv ∧ mv ≤ 12` test on the parsed month value `mv`. -/
def extractDateSuffix (modelId : List Char) : List Char × List Char :=
  match findFullDate modelId with
  | some (pre, year, month) =>
    let mv := twoDigitVal month
    if 1 ≤ mv ∧ mv ≤ 12 then
      (pre, formatDateSuffix (MONTH_NAMES.getD (mv - 1) "") year)
    else extractShort modelId
  | none => extractShort modelId

/-- The non-fine-tune body of `generateDisplayName` (src/src/sync.ts:248-289):
compute the display name of `baseModelId` via override table, slash handling,
date extraction and smart title-casing. -/
def nameCore (baseModelId : List Char) : List Char :=
  match findName DISPLAY_NAMES (String.mk baseModelId) with
  | some n => n.data
  | none =>
    if hasSubstr ['/'] baseModelId then
      let parts := splitOnChar '/' baseModelId
      let lastP := parts.getLastD []
      let last := if lastP.isEmpty then baseModelId else lastP
      match findName DISPLAY_NAMES (String.mk last) with
      | some n => n.data
      | none =>
        let p := extractDateSuffix last
        match findName DISPLAY_NAMES (String.mk p.1) with
        | some n => if p.2.isEmpty then n.data else n.data ++ (' ' :: p.2)
        | none =>
          let n := smartTitleCase p.1
          if p.2.isEmpty then n else n ++ (' ' :: p.2)
    else
      let p := extractDateSuffix baseModelId
      match findName DISPLAY_NAMES (String.mk p.1) with
      | some n => if p.2.isEmpty then n.data else n.data ++ (' ' :: p.2)
      | none =>
        let n := smartTitleCase p.1
        if p.2.isEmpty then n else n ++ (' ' :: p.2)

/-- Embeds `generateDisplayName` (src/src/sync.ts:235-293). -/
def generateDisplayNameL (modelId : List Char) : List Char :=
  match findName DISPLAY_NAMES (String.mk modelId) with
  | some n => n.data
  | none =>
    let isFineTuned := ("ft:".data).isPrefixOf modelId
    let baseModelId := if isFineTuned then modelId.drop 3 else modelId
    let name := nameCore baseModelId
    if isFineTuned then name ++ " [Fine-tuned]".data else name

/-- Embeds `generateDisplayName` on `String`. -/
def generateDisplayName (modelId : String) : String :=
  String.mk (generateDisplayNameL modelId.data)

/-- Embeds `getProviderDisplayName`, default branch (src/src/sync.ts:309-316). -/
def defaultProviderName (provider : String) : List Char :=
  let joined := List.intercalate [' ']
    ((splitDashUnderscore provider.data).map capFirstLowerRest)
  let s1 := replaceWordPat false 'A' "i".data "AI".data false joined
  let s2 := replaceWordPat false 'L' "lm".data "LLM".data false s1
  let s3 := replaceWordPat false 'A' "pi".data "API".data false s2
  replaceWordPat false 'M' "l".data "ML".data false s3

/-- Embeds `getProviderDisplayName` (src/src/sync.ts:295-317). -/
def getProviderDisplayName (provider : String) : String :=
  let lowerProvider := toLowerList provider.data
  match findName PROVIDER_NAMES (String.mk lowerProvider) with
  | some n => n
  | none =>
    if ("text-completion-".data).isPrefixOf lowerProvider then
      let maybe := (splitOnChar '-' lowerProvider).getD 2 []
      match findName PROVIDER_NAMES (String.mk maybe) with
      | some n => n
      | none => String.mk (defaultProviderName provider)
    else String.mk (defaultProviderName provider)

/-! ## Upstream records and the record transformer (src/src/sync.ts:322-545) -/
/-- Association-list lookup, modelling JS `Map.get` / object property access
over maps built by the pipeline (keys unique by construction). -/
def alookup {β : Type} : List (String × β) → String → Option β
  | [], _ => none
  | (k, v) :: rest, key => if k = key then some v else alookup rest key

/-- JS property assignment `obj[k] = v` on an object modelled as an
association list: overwrite in place when the key exists (keeping its
position), append otherwise. -/
def setKV {β : Type} : List (String × β) → String → β → List (String × β)
  | [], k, v => [(k, v)]
  | (k2, v2) :: rest, k, v =>
    if k2 = k then (k2, v) :: rest else (k2, v2) :: setKV rest k v

/-- The upstream LiteLLM record after zod validation (`LiteLLMModelSchema`,
src/src/sync.ts:323-339).  The schema's optional fields are `Option`s;
`extra_supports` carries the passthrough dynamic `supports_*` boolean fields
beyond the typed ones (other passthrough fields influence no canonical output
field read by any claim and are not modelled). -/
structure LiteLLMModel where
  litellm_provider : String
  mode : Option String := none
  supports_function_calling : Option Bool := none
  supports_parallel_function_calling : Option Bool := none
  supports_vision : Option Bool := none
  supports_response_schema : Option Bool := none
  input_cost_per_token : Option ℚ := none
  output_cost_per_token : Option ℚ := none
  cache_creation_input_token_cost : Option ℚ := none
  cache_read_input_token_cost : Option ℚ := none
  max_input_tokens : Option ℚ := none
  max_output_tokens : Option ℚ := none
  deprecation_date : Option String := none
  extra_supports : List (String × Bool) := []
deriving DecidableEq

/-- The canonical model record produced by `transformModel`
(src/src/schema.ts `Model`): the explicitly-assigned fields of the output
object.  The four legacy capability booleans are explicit fields; the full
dynamic capability mapping is `capabilities`.  The upstream-specific fields
removed by `stripOriginalFields` are absent. -/
structure Model where
  model_id : String
  model_name : String
  provider_id : String
  provider_name : String
  max_input_tokens : Option ℚ
  max_output_tokens : Option ℚ
  input_cost_per_token : ℚ
  input_cost_per_million : ℚ
  output_cost_per_token : ℚ
  output_cost_per_million : ℚ
  cache_read_cost_per_token : Option ℚ
  cache_read_cost_per_million : Option ℚ
  cache_write_cost_per_token : Option ℚ
  cache_write_cost_per_million : Option ℚ
  model_type : String
  deprecation_date : Option String
  supports_function_calling : Bool
  supports_vision : Bool
  supports_json_mode : Bool
  supports_parallel_functions : Bool
  capabilities : List (String × Bool)
deriving DecidableEq

def optEntry (name : String) : Option Bool → List (String × Bool)
  | some b => [(name, b)]
  | none => []

/-- The own `supports_*`-style boolean fields of an upstream record, in
enumeration order: the typed schema fields first, then the passthrough
extras.  These are what the `{...litellmModel}` spread contributes and what
`discoverCapabilities` / `applyCapabilities` enumerate. -/
def boolFields (m : LiteLLMModel) : List (String × Bool) :=
  optEntry "supports_function_calling" m.supports_function_calling ++
  optEntry "supports_parallel_function_calling" m.supports_parallel_function_calling ++
  optEntry "supports_vision" m.supports_vision ++
  optEntry "supports_response_schema" m.supports_response_schema ++
  m.extra_supports

/-- Embeds `prefixPattern` (src/src/sync.ts:343-344): the alternatives, in source
order. -/
def PREFIX_PROVIDERS : List String :=
  ["openai", "anthropic", "bedrock", "vertex_ai", "cohere", "replicate",
   "huggingface", "together_ai", "deepinfra", "groq", "mistral", "perplexity",
   "anyscale", "cloudflare", "voyage", "databricks", "ai21"]

/-- JS `litellmName.replace(prefixPattern, '')`: strip the first matching
`provider/` prefix, if any. -/
def stripProviderSlash (name : List Char) : List Char :=
  match PREFIX_PROVIDERS.find? (fun p => (p.data ++ ['/']).isPrefixOf name) with
  | some p => name.drop (p.data.length + 1)
  | none => name

/-- Embeds `transformModelId` (src/src/sync.ts:346-362).  Inside the
`provider === 'google'` block the source tests `gemini/gemini-` first, then
`gemini/`, then the unreachable `gemini/gemma-`; a google-provider name that
matches none of them falls through to the generic prefix strip, as in the
source. -/
def transformModelId (litellmName : String) (provider : String) : String :=
  let n := litellmName.data
  if provider = "google" ∧ ("gemini/gemini-".data).isPrefixOf n then String.mk (n.drop 14)
  else if provider = "google" ∧ ("gemini/".data).isPrefixOf n then String.mk (n.drop 7)
  else if provider = "google" ∧ ("gemini/gemma-".data).isPrefixOf n then String.mk (n.drop 7)
  else if provider = "xai" ∧ ("xai/".data).isPrefixOf n then String.mk (n.drop 4)
  else String.mk (stripProviderSlash n)

/-- Embeds `discoverCapabilities` (src/src/sync.ts:393-409): the insertion-ordered
set of `supports_*` field names holding a boolean on at least one record. -/
def discoverCapabilities (models : List (String × LiteLLMModel)) : List String :=
  models.foldl (fun acc nm =>
    (boolFields nm.2).foldl (fun a kv =>
      if ("supports_".data).isPrefixOf kv.1.data ∧ kv.1 ∉ a then a ++ [kv.1] else a) acc) []

/-- The fixed seed of `discoverModelTypes` (src/src/sync.ts:415-422). -/
def BASE_TYPE_MAP : List (String × String) :=
  [("chat", "chat"), ("completion", "completion"), ("embedding", "embedding"),
   ("image_generation", "image"), ("audio_transcription", "audio"),
   ("audio_speech", "audio"), ("moderation", "moderation"), ("rerank", "rerank")]

/-- One loop iteration of `discoverModelTypes` (src/src/sync.ts:423-430):
skip a record with a falsy `mode`, otherwise add an identity entry for an
unseen `mode`. -/
def discoverTypeStep (acc : List (String × String)) (nm : String × LiteLLMModel) :
    List (String × String) :=
  match nm.2.mode with
  | none => acc
  | some s =>
    if s = "" then acc
    else
      match alookup acc s with
      | some _ => acc
      | none => acc ++ [(s, s)]

/-- Embeds `discoverModelTypes` (src/src/sync.ts:411-432): seed map extended with an
identity entry for every truthy `mode` not already present. -/
def discoverModelTypes (models : List (String × LiteLLMModel)) : List (String × String) :=
  models.foldl discoverTypeStep BASE_TYPE_MAP

/-- Embeds `getModelType` (src/src/sync.ts:434-442): `if (!mode) return 'chat';
return modelTypeMap.get(mode) || mode;` with JS truthiness on strings. -/
def getModelType (mode : Option String) (modelTypeMap : List (String × String)) : String :=
  match mode with
  | none => "chat"
  | some s =>
    if s = "" then "chat"
    else
      match alookup modelTypeMap s with
      | some v => if v = "" then s else v
      | none => s

/-- Embeds `applyCapabilities` (src/src/sync.ts:444-458): for each discovered
capability name, copy the boolean value from the source record when it has
one. -/
def applyCapabilities (target : List (String × Bool)) (source : LiteLLMModel) :
    Option (List String) → List (String × Bool)
  | none => target
  | some caps =>
    caps.foldl (fun t cap =>
      match alookup (boolFields source) cap with
      | some v => setKV t cap v
      | none => t) target

/-- Embeds `applyLegacyFlags` (src/src/sync.ts:460-470). -/
def applyLegacyFlags (target : List (String × Bool)) (src : LiteLLMModel) :
    List (String × Bool) :=
  let t1 :=
    match src.supports_response_schema with
    | some b => setKV target "supports_json_mode" b
    | none => target
  match src.supports_parallel_function_calling with
  | some b => setKV t1 "supports_parallel_functions" b
  | none => t1

/-- Embeds `ensureCapabilityDefaults` (src/src/sync.ts:472-484): coerce the four
legacy capability fields to booleans via `v === true`. -/
def ensureCapabilityDefaults (t0 : List (String × Bool)) : List (String × Bool) :=
  let t1 := setKV t0 "supports_function_calling"
    (alookup t0 "supports_function_calling" == some true)
  let t2 := setKV t1 "supports_vision" (alookup t1 "supports_vision" == some true)
  let t3 := setKV t2 "supports_json_mode" (alookup t2 "supports_json_mode" == some true)
  setKV t3 "supports_parallel_functions"
    (alookup t3 "supports_parallel_functions" == some true)

/-- JS `x || null` on an optional number: `0` (and absence) becomes `null`. -/
def truthyNumOpt : Option ℚ → Option ℚ
  | some q => if q = 0 then none else some q
  | none => none

/-- JS `x || null` on an optional string: `''` (and absence) becomes `null`. -/
def truthyStrOpt : Option String → Option String
  | some s => if s = "" then none else some s
  | none => none

/-- Embeds `transformModel` (src/src/sync.ts:499-545).  The declared return type of
the source is `Model | null`; the body always returns a record, so the
embedding always returns `some`. -/
def transformModel (litellmName : String) (litellmModel : LiteLLMModel)
    (knownCapabilities : Option (List String))
    (modelTypeMap : Option (List (String × String))) : Option Model :=
  let providerId := transformProviderId litellmModel.litellm_provider
  let modelId := transformModelId litellmName providerId
  let inputCost := litellmModel.input_cost_per_token.getD 0
  let outputCost := litellmModel.output_cost_per_token.getD 0
  let caps0 := boolFields litellmModel
  let caps1 := applyCapabilities caps0 litellmModel knownCapabilities
  let caps2 := applyLegacyFlags caps1 litellmModel
  let caps := ensureCapabilityDefaults caps2
  some {
    model_id := modelId
    model_name := generateDisplayName modelId
    provider_id := providerId
    provider_name := getProviderDisplayName providerId
    max_input_tokens := truthyNumOpt litellmModel.max_input_tokens
    max_output_tokens := truthyNumOpt litellmModel.max_output_tokens
    input_cost_per_token := inputCost
    input_cost_per_million := inputCost * 1000000
    output_cost_per_token := outputCost
    output_cost_per_million := outputCost * 1000000
    cache_read_cost_per_token := truthyNumOpt litellmModel.cache_read_input_token_cost
    cache_read_cost_per_million :=
      (truthyNumOpt litellmModel.cache_read_input_token_cost).map (· * 1000000)
    cache_write_cost_per_token := truthyNumOpt litellmModel.cache_creation_input_token_cost
    cache_write_cost_per_million :=
      (truthyNumOpt litellmModel.cache_creation_input_token_cost).map (· * 1000000)
    model_type := getModelType litellmModel.mode (modelTypeMap.getD [])
    deprecation_date := truthyStrOpt litellmModel.deprecation_date
    supports_function_calling := (alookup caps "supports_function_calling").getD false
    supports_vision := (alookup caps "supports_vision").getD false
    supports_json_mode := (alookup caps "supports_json_mode").getD false
    supports_parallel_functions := (alookup caps "supports_parallel_functions").getD false
    capabilities := caps }

/-! ## Theorems about the record transformer -/
/-- A throwaway default record for `Option.getD` in closed witnesses. -/
def dummyModel : Model :=
  { model_id := "", model_name := "", provider_id := "", provider_name := ""
    max_input_tokens := none, max_output_tokens := none
    input_cost_per_token := 0, input_cost_per_million := 0
    output_cost_per_token := 0, output_cost_per_million := 0
    cache_read_cost_per_token := none, cache_read_cost_per_million := none
    cache_write_cost_per_token := none, cache_write_cost_per_million := none
    model_type := "chat", deprecation_date := none
    supports_function_calling := false, supports_vision := false
    supports_json_mode := false, supports_parallel_functions := false
    capabilities := [] }

/-! ## Artifact building (src/src/sync.ts:606-659)

`String.prototype.localeCompare` is modelled as lexicographic code-point
comparison (`lexLt`); the sortedness and agreement claims are stated with
respect to this order. -/
/-- Strict lexicographic order on character lists (code-point order). -/
def lexLt : List Char → List Char → Bool
  | [], [] => false
  | [], _ :: _ => true
  | _ :: _, [] => false
  | a :: as, b :: bs => if a = b then lexLt as bs else decide (a < b)

/-- Embeds `a.localeCompare(b) < 0`, modelled as code-point order. -/
def strLt (a b : String) : Bool := lexLt a.data b.data

/-! A boolean insertion sort; the JS `Array.prototype.sort` result is the
sorted permutation of its input, which is unique here because every
comparator below is strict on the (distinct-keyed) inputs it sorts. -/
def insertSorted {α : Type} (le : α → α → Bool) (x : α) : List α → List α
  | [] => [x]
  | y :: ys => if le x y then x :: y :: ys else y :: insertSorted le x ys

def insertionSort {α : Type} (le : α → α → Bool) : List α → List α
  | [] => []
  | x :: xs => insertSorted le x (insertionSort le xs)

/-- Embeds `a.localeCompare(b) <= 0` as a boolean. -/
def strLe (a b : String) : Bool := !(strLt b a)

/-- The value comparator of `sortedMap` (src/src/sync.ts:623-627) as a
"comes-no-later-than" boolean: by `provider_id`, ties broken by `model_id`. -/
def modelLe (a b : Model) : Bool :=
  if a.provider_id = b.provider_id then strLe a.model_id b.model_id
  else strLt a.provider_id b.provider_id

/-- The per-provider comparator (src/src/sync.ts:638-640): by `model_id`. -/
def modelIdLe (a b : Model) : Bool := strLe a.model_id b.model_id

/-- The comparator of `sortedMap` applied to `Object.entries` pairs. -/
def entryLe (a b : String × Model) : Bool := modelLe a.2 b.2

/-- The provider-key comparator (src/src/sync.ts:650). -/
def provEntryLe (a b : String × List Model) : Bool := strLe a.1 b.1

/-- One iteration of the transform loop (src/src/sync.ts:616-621): a record
transforming successfully is stored under its `model_id`, overwriting any
earlier record with the same id (last-write-wins). -/
def transformStep (caps : List String) (tmap : List (String × String))
    (acc : List (String × Model)) (nm : String × LiteLLMModel) : List (String × Model) :=
  match transformModel nm.1 nm.2 (some caps) (some tmap) with
  | some t => setKV acc t.model_id t
  | none => acc

def buildTransformed (models : List (String × LiteLLMModel)) (caps : List String)
    (tmap : List (String × String)) : List (String × Model) :=
  models.foldl (transformStep caps tmap) []

/-- Embeds `metadata` (src/src/sync.ts:652-657). -/
structure ArtifactMetadata where
  source : String
  generated_at : String
  model_count : Nat
  schema_version : String
deriving DecidableEq

/-- Embeds `BuiltArtifacts` (src/src/sync.ts:592-604); the JS objects `modelsMap` and
`modelsByProvider` are insertion-ordered association lists. -/
structure BuiltArtifacts where
  version : String
  etag : Option String
  modelsMap : List (String × Model)
  modelsList : List Model
  modelsByProvider : List (String × List Model)
  metadata : ArtifactMetadata
deriving DecidableEq

/-- Embeds `generated_at.replace(/[-:TZ.]/g, '').slice(0, 14) + 'Z'`
(src/src/sync.ts:643). -/
def versionOf (generated_at : String) : String :=
  String.mk ((generated_at.data.filter
    (fun c => !(c == '-' || c == ':' || c == 'T' || c == 'Z' || c == '.'))).take 14
    ++ ['Z'])

/-- The grouping loop body (src/src/sync.ts:631-636): append the record to its
provider's bucket, creating the bucket on first sight of the provider. -/
def addToProvider (acc : List (String × List Model)) (m : Model) :
    List (String × List Model) :=
  match alookup acc m.provider_id with
  | some l => setKV acc m.provider_id (l ++ [m])
  | none => acc ++ [(m.provider_id, [m])]

/-- Embeds `buildArtifacts` (src/src/sync.ts:606-659) after the fetch: the pure
construction of the artifact set from the validated upstream entries (in
upstream object key order), the wall-clock timestamp and the change token. -/
def buildArtifactsCore (sourceUrl generated_at : String) (etag : Option String)
    (models : List (String × LiteLLMModel)) : BuiltArtifacts :=
  let capabilities := discoverCapabilities models
  let modelTypeMap := discoverModelTypes models
  let transformed := buildTransformed models capabilities modelTypeMap
  let sortedMap := insertionSort entryLe transformed
  let list := sortedMap.map Prod.snd
  let providers0 := list.foldl addToProvider []
  let providers1 := providers0.map (fun p => (p.1, insertionSort modelIdLe p.2))
  { version := versionOf generated_at
    etag := truthyStrOpt etag
    modelsMap := sortedMap
    modelsList := list
    modelsByProvider := insertionSort provEntryLe providers1
    metadata := { source := sourceUrl, generated_at := generated_at,
                  model_count := list.length, schema_version := "1.0.0" } }

/-! ## Durable store, manifest, cache warmer and read path
(src/src/sync.ts:661-745, src/src/data-store.ts, src/src/index.ts)

The KV namespace is modelled as a typed function store.  Keys: the source uses
the strings `v1:{version}:{map|list|providers|metadata}` and `v1:manifest`;
since a version string never makes `v1:{version}:{kind}` collide with
`v1:manifest` (the latter has no second `:`-separated segment) and the
encoding is injective, the key space is modelled by the structured `KVKey`.
JSON serialization round-trips, so values are stored typed. -/
inductive ArtifactKind
  | list
  | map
  | providers
  | metadata
deriving DecidableEq

/-- One entry of the manifest version log (src/src/sync.ts:665-670). -/
structure VersionEntry where
  id : String
  generated_at : String
  etag : Option String
  model_count : Nat
deriving DecidableEq

/-- Embeds `Manifest` (src/src/sync.ts:661-671). -/
structure Manifest where
  latest : Option String
  etag : Option String
  checked_at : Option String
  versions : List VersionEntry
deriving DecidableEq

/-- The payload of one artifact kind. -/
inductive ArtifactValue
  | mapArt (v : List (String × Model))
  | listArt (v : List Model)
  | providersArt (v : List (String × List Model))
  | metadataArt (v : ArtifactMetadata)
deriving DecidableEq

inductive KVKey
  | artifact (version : String) (kind : ArtifactKind)
  | manifest
deriving DecidableEq

inductive KVValue
  | art (v : ArtifactValue)
  | manifestVal (m : Manifest)
deriving DecidableEq

def KVStore : Type := KVKey → Option KVValue

/-- Embeds `kv.put`. -/
def kvSet (kv : KVStore) (k : KVKey) (v : KVValue) : KVStore :=
  fun k2 => if k2 = k then some v else kv k2

/-- Which `kv.put` calls succeed; a `false` key models a durable-store write
failure (a thrown exception at that `await kv.put`). -/
structure KVBehavior where
  putOk : KVKey → Bool

/-- Embeds `readManifest` (src/src/sync.ts:673-676). -/
def readManifest (kv : KVStore) : Option Manifest :=
  match kv KVKey.manifest with
  | some (KVValue.manifestVal m) => some m
  | _ => none

def emptyManifest : Manifest :=
  { latest := none, etag := none, checked_at := none, versions := [] }

/-- Embeds `writeArtifactsToKV` (src/src/sync.ts:678-711) under the fallible-put
behavior `beh`: the four per-version artifact writes in source order, then
the read-modify-write of the manifest.  A failing `put` throws in the source,
so nothing after it executes; the returned store reflects exactly the puts
that completed, and the manifest is returned only on full success. -/
def writeArtifactsToKV (beh : KVBehavior) (kv : KVStore)
    (artifacts : BuiltArtifacts) (now : String) : KVStore × Option Manifest :=
  let v := artifacts.version
  if !beh.putOk (.artifact v .map) then (kv, none) else
  let kv1 := kvSet kv (.artifact v .map) (.art (.mapArt artifacts.modelsMap))
  if !beh.putOk (.artifact v .list) then (kv1, none) else
  let kv2 := kvSet kv1 (.artifact v .list) (.art (.listArt artifacts.modelsList))
  if !beh.putOk (.artifact v .providers) then (kv2, none) else
  let kv3 := kvSet kv2 (.artifact v .providers)
    (.art (.providersArt artifacts.modelsByProvider))
  if !beh.putOk (.artifact v .metadata) then (kv3, none) else
  let kv4 := kvSet kv3 (.artifact v .metadata) (.art (.metadataArt artifacts.metadata))
  let current := (readManifest kv4).getD emptyManifest
  let next : Manifest :=
    { latest := some v
      etag := truthyStrOpt artifacts.etag
      checked_at := some now
      versions := current.versions ++
        [{ id := v, generated_at := artifacts.metadata.generated_at,
           etag := truthyStrOpt artifacts.etag,
           model_count := artifacts.metadata.model_count }] }
  if !beh.putOk .manifest then (kv4, none) else
  (kvSet kv4 .manifest (.manifestVal next), some next)

/-- Embeds `warmLatestCache` (src/src/sync.ts:717-738): overwrite the four fixed
well-known cache paths with the fresh artifacts. -/
def warmLatestCache (cache : ArtifactKind → Option ArtifactValue)
    (a : BuiltArtifacts) : ArtifactKind → Option ArtifactValue :=
  fun k =>
    some (match k with
      | .list => .listArt a.modelsList
      | .map => .mapArt a.modelsMap
      | .providers => .providersArt a.modelsByProvider
      | .metadata => .metadataArt a.metadata)

/-! ### Read path (src/src/data-store.ts) -/
/-- The state the read path sees: edge cache (one fixed well-known path per
artifact kind) and the optional KV binding. -/
structure ReadState where
  cache : ArtifactKind → Option ArtifactValue
  kv : Option KVStore

/-- Embeds `getLatestVersion` (src/src/data-store.ts:54-65). -/
def getLatestVersion (st : ReadState) : Option String :=
  match st.kv with
  | none => none
  | some kv =>
    match readManifest kv with
    | none => none
    | some man => man.latest

/-- Embeds `loadFromKV` (src/src/data-store.ts:45-52) at an artifact key. -/
def loadFromKV (okv : Option KVStore) (version : String) (name : ArtifactKind) :
    Option ArtifactValue :=
  match okv with
  | none => none
  | some kv =>
    match kv (KVKey.artifact version name) with
    | some (KVValue.art v) => some v
    | _ => none

/-- The outcome of one `getFromCacheOrKV` call: the returned value, the state
after the call (the cache may have been warmed), and whether the durable
store was accessed at all during the call. -/
structure ReadResult where
  value : Option ArtifactValue
  state : ReadState
  kvAccessed : Bool

/-- Embeds `getFromCacheOrKV` (src/src/data-store.ts:67-116), parameterized by the
bundled static fallback snapshot `static` (modelled from the spec: the
build-time-embedded `src/src/data/*` snapshot files are not part of the
repository sources; one fixed artifact value per kind). -/
def getFromCacheOrKV (stat : ArtifactKind → ArtifactValue) (st : ReadState)
    (name : ArtifactKind) : ReadResult :=
  match st.cache name with
  | some cached => ⟨some cached, st, false⟩
  | none =>
    let kvAcc := st.kv.isSome
    match getLatestVersion st with
    | none => ⟨some (stat name), st, kvAcc⟩
    | some version =>
      match loadFromKV st.kv version name with
      | some kvVal =>
        ⟨some kvVal,
         { st with cache := fun k => if k = name then some kvVal else st.cache k },
         true⟩
      | none => ⟨some (stat name), st, true⟩

/-! ### Refresh triggers (src/src/index.ts:83-116 and 157-190) -/
/-- Outcome of the cheap `HEAD` probe: a response with an optional `etag`
header, or a thrown fetch error. -/
inductive ProbeOutcome
  | ok (etag : Option String)
  | fail
deriving DecidableEq

/-- Outcome of `buildArtifacts()`: a built artifact set, or a thrown
network/parse error. -/
inductive BuildOutcome
  | ok (artifacts : BuiltArtifacts)
  | fail

/-- Embeds `remoteEtag && manifest?.etag && remoteEtag === manifest.etag`
(src/src/index.ts:102 and 173), with `''` falsy. -/
def etagMatches (remoteEtag : Option String) (man : Option Manifest) : Bool :=
  match remoteEtag, man with
  | some e, some m =>
    match m.etag with
    | some e2 => !(e == "") && !(e2 == "") && e == e2
    | none => false
  | _, _ => false

/-- The build-and-publish tail shared by the scheduled handler and the admin
endpoint (`buildArtifacts` + `writeArtifactsToKV` + `warmLatestCache`,
src/src/index.ts:181-189 / `runSyncToKV`, src/src/sync.ts:740-745): a build
failure, or a durable-store write failure, stops before the cache warm. -/
def buildAndPublish (build : BuildOutcome) (beh : KVBehavior) (kv : KVStore)
    (cache : ArtifactKind → Option ArtifactValue) (now : String) :
    KVStore × (ArtifactKind → Option ArtifactValue) :=
  match build with
  | .fail => (kv, cache)
  | .ok artifacts =>
    match writeArtifactsToKV beh kv artifacts now with
    | (kv2, none) => (kv2, cache)
    | (kv2, some _) => (kv2, warmLatestCache cache artifacts)

/-- The `scheduled` handler (src/src/index.ts:157-190): probe the remote etag
against the manifest and skip when unchanged; on probe failure proceed with a
full build. -/
def scheduledRun (probe : ProbeOutcome) (build : BuildOutcome) (beh : KVBehavior)
    (kv : KVStore) (cache : ArtifactKind → Option ArtifactValue) (now : String) :
    KVStore × (ArtifactKind → Option ArtifactValue) :=
  match probe with
  | .ok remoteEtag =>
    if etagMatches remoteEtag (readManifest kv) then (kv, cache)
    else buildAndPublish build beh kv cache now
  | .fail => buildAndPublish build beh kv cache now

/-- The authenticated `POST /admin/refresh` handler past its auth and
KV-binding checks (src/src/index.ts:96-110): when not forced, the same cheap
etag check short-circuits to `not_modified`; probe errors are swallowed and
the refresh proceeds. -/
def adminRefresh (force : Bool) (probe : ProbeOutcome) (build : BuildOutcome)
    (beh : KVBehavior) (kv : KVStore) (cache : ArtifactKind → Option ArtifactValue)
    (now : String) : KVStore × (ArtifactKind → Option ArtifactValue) :=
  if force then buildAndPublish build beh kv cache now
  else
    match probe with
    | .ok remoteEtag =>
      if etagMatches remoteEtag (readManifest kv) then (kv, cache)
      else buildAndPublish build beh kv cache now
    | .fail => buildAndPublish build beh kv cache now

/-- A minimal artifact set for closed witnesses. -/
def emptyArtifacts : BuiltArtifacts :=
  { version := "20240101000000Z", etag := none, modelsMap := [], modelsList := [],
    modelsByProvider := [],
    metadata := { source := "s", generated_at := "g", model_count := 0,
                  schema_version := "1.0.0" } }

/-- A concrete populated KV store for the C2 witness. -/
def witnessKV : KVStore := fun k =>
  if k = KVKey.manifest then
    some (.manifestVal { latest := some "v", etag := none, checked_at := none,
                         versions := [] })
  else if k = KVKey.artifact "v" ArtifactKind.list then
    some (.art (.listArt []))
  else none

/-- A manifest-bearing store whose recorded token is `"abc"`. -/
def witnessKV2 : KVStore := fun k =>
  if k = KVKey.manifest then
    some (.manifestVal { latest := some "v", etag := some "abc",
                         checked_at := none, versions := [] })
  else none

/-! ## Theorems -/

/-! Character-level facts about ASCII lower-casing. -/
theorem toNat_ofNat_add32 {n : Nat} (h2 : n ≤ 90) : (Char.ofNat (n + 32)).toNat = n + 32 := by
  have hv : (n + 32).isValidChar := Or.inl (by omega)
  simp [Char.ofNat, hv, Char.ofNatAux, Char.toNat, UInt32.toNat, UInt32.ofNatCore,
    BitVec.toNat_ofNat]

theorem toLower_toNat (c : Char) :
    c.toLower.toNat = if c.toNat ≥ 65 ∧ c.toNat ≤ 90 then c.toNat + 32 else c.toNat := by
  simp only [Char.toLower]
  by_cases h : c.toNat ≥ 65 ∧ c.toNat ≤ 90
  · simp only [h, if_true]; exact toNat_ofNat_add32 h.2
  · simp [h]

theorem char_toNat_inj {a b : Char} (h : a.toNat = b.toNat) : a = b := by
  apply Char.eq_of_val_eq
  apply UInt32.eq_of_toBitVec_eq
  exact BitVec.eq_of_toNat_eq h

theorem toLower_not_upper (c : Char) : ¬(c.toLower.toNat ≥ 65 ∧ c.toLower.toNat ≤ 90) := by
  rw [toLower_toNat]; split <;> omega

theorem toLower_idem (c : Char) : c.toLower.toLower = c.toLower := by
  conv_lhs => rw [Char.toLower]
  simp only [if_neg (toLower_not_upper c)]

theorem toLower_eq_underscore {c : Char} (h : c.toLower = '_') : c = '_' := by
  have h2 : c.toLower.toNat = 95 := by rw [h]; rfl
  rw [toLower_toNat] at h2
  by_cases hc : c.toNat ≥ 65 ∧ c.toNat ≤ 90
  · rw [if_pos hc] at h2; omega
  · rw [if_neg hc] at h2; exact char_toNat_inj h2

/-! List-level lemmas used for the provider-id normalizer. -/
theorem underscore_isPrefixOf_cons {c : Char} (rest : List Char) (h : c ≠ '_') :
    (['_'] : List Char).isPrefixOf (c :: rest) = false := by
  simp only [List.isPrefixOf, Bool.and_eq_false_iff, beq_eq_false_iff_ne, ne_eq]
  exact Or.inl fun hh => h hh.symm

theorem uai_isPrefixOf_cons {c : Char} (rest : List Char) (h : c ≠ '_') :
    (['_', 'a', 'i'] : List Char).isPrefixOf (c :: rest) = false := by
  simp only [List.isPrefixOf, Bool.and_eq_false_iff, beq_eq_false_iff_ne, ne_eq]
  exact Or.inl fun hh => h hh.symm

theorem beforeFirst_underscore_after_ai (s : List Char) :
    beforeFirst ['_'] (beforeFirst ['_', 'a', 'i'] s) = beforeFirst ['_'] s := by
  induction s with
  | nil => rfl
  | cons c rest ih =>
    by_cases h : c = '_'
    · subst h
      by_cases hai : (['_', 'a', 'i'] : List Char).isPrefixOf ('_' :: rest)
      · simp [beforeFirst, hai]
      · have hu : (['_'] : List Char).isPrefixOf ('_' :: rest) = true := by
          simp [List.isPrefixOf]
        have hu2 : (['_'] : List Char).isPrefixOf
            ('_' :: beforeFirst ['_', 'a', 'i'] rest) = true := by
          simp [List.isPrefixOf]
        simp only [beforeFirst, hai, if_false, Bool.false_eq_true, hu, hu2, if_true]
    · have hai := uai_isPrefixOf_cons (c := c) rest h
      have hu := underscore_isPrefixOf_cons (c := c) rest h
      have hu2 := underscore_isPrefixOf_cons
        (c := c) (beforeFirst ['_', 'a', 'i'] rest) h
      simp only [beforeFirst, hai, hu, hu2, Bool.false_eq_true, if_false]
      exact congrArg (c :: ·) ih

theorem beforeFirst_underscore_toLower (s : List Char) :
    beforeFirst ['_'] (toLowerList s) = toLowerList (beforeFirst ['_'] s) := by
  induction s with
  | nil => rfl
  | cons c rest ih =>
    by_cases h : c = '_'
    · subst h
      have hl : ('_' : Char).toLower = '_' := rfl
      simp [beforeFirst, toLowerList, List.isPrefixOf, hl]
    · have h' : c.toLower ≠ '_' := fun hc => h (toLower_eq_underscore hc)
      have h1 := underscore_isPrefixOf_cons (c := c.toLower) (toLowerList rest) h'
      have h2 := underscore_isPrefixOf_cons (c := c) rest h
      simp only [toLowerList] at h1 ih
      simp only [toLowerList, List.map_cons, beforeFirst, h1, h2,
        Bool.false_eq_true, if_false]
      exact congrArg (c.toLower :: ·) ih

theorem underscore_not_mem_beforeFirst (s : List Char) :
    '_' ∉ beforeFirst ['_'] s := by
  induction s with
  | nil => simp [beforeFirst]
  | cons c rest ih =>
    by_cases h : c = '_'
    · subst h; simp [beforeFirst, List.isPrefixOf]
    · have h2 := underscore_isPrefixOf_cons (c := c) rest h
      simp only [beforeFirst, h2, Bool.false_eq_true, if_false, List.mem_cons, not_or]
      exact ⟨fun hc => h hc.symm, ih⟩

theorem beforeFirst_eq_self_of_not_mem {s : List Char} (h : '_' ∉ s) :
    beforeFirst ['_'] s = s := by
  induction s with
  | nil => rfl
  | cons c rest ih =>
    have hc : c ≠ '_' := fun hc => h (hc ▸ List.mem_cons_self c rest)
    have h2 := underscore_isPrefixOf_cons (c := c) rest hc
    have hrest : '_' ∉ rest := fun hm => h (List.mem_cons_of_mem c hm)
    simp only [beforeFirst, h2, Bool.false_eq_true, if_false, ih hrest]

theorem toLowerList_idem (s : List Char) : toLowerList (toLowerList s) = toLowerList s := by
  simp only [toLowerList, List.map_map]
  exact List.map_congr_left (fun c _ => toLower_idem c)

theorem underscore_not_mem_toLowerList {s : List Char} (h : '_' ∉ s) :
    '_' ∉ toLowerList s := by
  intro hm
  rcases List.mem_map.mp hm with ⟨c, hc, hl⟩
  exact h (toLower_eq_underscore hl ▸ hc)

theorem loweredTag_no_underscore (s : String) : '_' ∉ loweredTag s :=
  underscore_not_mem_toLowerList (underscore_not_mem_beforeFirst _)

theorem toLowerList_loweredTag (s : String) : toLowerList (loweredTag s) = loweredTag s :=
  toLowerList_idem _

theorem loweredTag_eq_of_sameUpToCase {a b : String} (h : sameUpToCase a b) :
    loweredTag a = loweredTag b := by
  unfold loweredTag
  rw [beforeFirst_underscore_after_ai, beforeFirst_underscore_after_ai,
    ← beforeFirst_underscore_toLower, ← beforeFirst_underscore_toLower, h]

theorem providerAlias_fixed (L : List Char) (hund : '_' ∉ L)
    (hlow : toLowerList L = L) :
    transformProviderId (providerAlias L) = providerAlias L := by
  by_cases h1 : L = "gemini".data
  · subst h1; decide
  by_cases h2 : L = "meta_llama".data
  · subst h2; decide
  by_cases h3 : L = "mistralai".data
  · subst h3; decide
  by_cases h4 : L = "codestral".data
  · subst h4; decide
  by_cases h5 : L = "deepseek-ai".data
  · subst h5; decide
  by_cases h6 : L = "bedrock_converse".data
  · subst h6; decide
  by_cases h7 : ("vertex_ai".data).isPrefixOf L = true
  · have hA : providerAlias L = "vertex" := by
      unfold providerAlias
      rw [if_neg h1, if_neg h2, if_neg h3, if_neg h4, if_neg h5, if_neg h6, if_pos h7]
    rw [hA]; decide
  by_cases h8 : hasSubstr "codestral".data L = true
  · have hA : providerAlias L = "mistral" := by
      unfold providerAlias
      rw [if_neg h1, if_neg h2, if_neg h3, if_neg h4, if_neg h5, if_neg h6,
        if_neg h7, if_pos h8]
    rw [hA]; decide
  have hA : providerAlias L = String.mk L := by
    unfold providerAlias
    rw [if_neg h1, if_neg h2, if_neg h3, if_neg h4, if_neg h5, if_neg h6,
      if_neg h7, if_neg h8]
  rw [hA]
  show providerAlias (loweredTag (String.mk L)) = String.mk L
  have hdata : (String.mk L).data = L := rfl
  have hTag : loweredTag (String.mk L) = L := by
    unfold loweredTag
    rw [hdata, beforeFirst_underscore_after_ai, beforeFirst_eq_self_of_not_mem hund, hlow]
  rw [hTag, hA]

/-- C8: `transformProviderId` maps the tag `"gemini"` to provider id `"google"`
and the `"vertex_ai_beta"` tag to provider id `"vertex"`; it is
case-insensitive (any casing of the same tag yields the same result); and it is
idempotent (applying it to its own output returns that output unchanged). -/
theorem C8_transformProviderId_normalization :
    transformProviderId "gemini" = "google" ∧
    transformProviderId "vertex_ai_beta" = "vertex" ∧
    (∀ a b : String, sameUpToCase a b → transformProviderId a = transformProviderId b) ∧
    (∀ s : String, transformProviderId (transformProviderId s) = transformProviderId s) := by
  refine ⟨by decide, by decide, ?_, ?_⟩
  · intro a b h
    unfold transformProviderId
    rw [loweredTag_eq_of_sameUpToCase h]
  · intro s
    show transformProviderId (providerAlias (loweredTag s)) = providerAlias (loweredTag s)
    exact providerAlias_fixed _ (loweredTag_no_underscore s) (toLowerList_loweredTag s)

/-- Closed instance of C8's quantified parts: case-insensitivity at
`"GEMINI"`/`"gemini"` and idempotence at `"Vertex_AI_Beta"`. -/
theorem C8_transformProviderId_normalization_witness :
    transformProviderId "GEMINI" = transformProviderId "gemini" ∧
    transformProviderId (transformProviderId "Vertex_AI_Beta") =
      transformProviderId "Vertex_AI_Beta" :=
  ⟨C8_transformProviderId_normalization.2.2.1 "GEMINI" "gemini"
    (show toLowerList "GEMINI".data = toLowerList "gemini".data by decide),
   C8_transformProviderId_normalization.2.2.2 "Vertex_AI_Beta"⟩

theorem findName_eq_none {table : List (String × String)} {key : String}
    (h : ∀ kv ∈ table, kv.1 ≠ key) : findName table key = none := by
  induction table with
  | nil => rfl
  | cons kv rest ih =>
    obtain ⟨k, v⟩ := kv
    simp only [findName]
    rw [if_neg (h (k, v) (List.mem_cons_self _ _))]
    exact ih fun kv2 hm => h kv2 (List.mem_cons_of_mem _ hm)

/-- No key of the curated override table carries the fine-tune marker. -/
theorem display_keys_not_ft :
    ∀ kv ∈ DISPLAY_NAMES, ("ft:".data).isPrefixOf kv.1.data = false := by decide

/-- C9: `generateDisplayName` satisfies the fixed edge cases, and every id
beginning with the fine-tune marker `ft:` yields the base name of the
remainder (`nameCore`, the shared non-fine-tune naming path, which is exactly
`generateDisplayName` on ids without the marker) with the suffix
`' [Fine-tuned]'` appended exactly once. -/
theorem C9_generateDisplayName_edge_cases :
    generateDisplayName "" = "" ∧
    generateDisplayName "model--name" = "Model  Name" ∧
    generateDisplayName "-start" = " Start" ∧
    generateDisplayName "model-2024-01-15" = "Model (Jan 2024)" ∧
    (∀ id : String, ("ft:".data).isPrefixOf id.data = true →
      generateDisplayName id =
        String.mk (nameCore (id.data.drop 3) ++ " [Fine-tuned]".data)) ∧
    (∀ id : String, ("ft:".data).isPrefixOf id.data = false →
      generateDisplayName id = String.mk (nameCore id.data)) := by
  refine ⟨by decide, by decide, by decide, by decide, ?_, ?_⟩
  · intro id h
    have hnone : findName DISPLAY_NAMES (String.mk id.data) = none := by
      apply findName_eq_none
      intro kv hm heq
      have hft := display_keys_not_ft kv hm
      rw [heq] at hft
      have hft2 : ("ft:".data).isPrefixOf id.data = false := hft
      rw [h] at hft2
      exact Bool.noConfusion hft2
    unfold generateDisplayName generateDisplayNameL
    rw [hnone]
    simp only [h, if_true]
  · intro id h
    unfold generateDisplayName generateDisplayNameL nameCore
    cases hf : findName DISPLAY_NAMES (String.mk id.data) with
    | some n => simp only [hf]
    | none => simp only [hf, h, Bool.false_eq_true, if_false]

/-- Closed instance of C9's quantified parts at `"ft:abc"` and `"abc"`. -/
theorem C9_generateDisplayName_edge_cases_witness :
    generateDisplayName "ft:abc" =
      String.mk (nameCore ("ft:abc".data.drop 3) ++ " [Fine-tuned]".data) ∧
    generateDisplayName "abc" = String.mk (nameCore "abc".data) :=
  ⟨C9_generateDisplayName_edge_cases.2.2.2.2.1 "ft:abc" (by decide),
   C9_generateDisplayName_edge_cases.2.2.2.2.2 "abc" (by decide)⟩

/-- C4: in every record produced by `transformModel`, each per-million cost
field equals the corresponding per-token field times 1 000 000 whenever both
are non-null, and the two optional cache pairs are both null or both
non-null. -/
theorem C4_pricing_round_trip (name : String) (m : LiteLLMModel)
    (caps : Option (List String)) (tmap : Option (List (String × String)))
    (r : Model) (h : transformModel name m caps tmap = some r) :
    r.input_cost_per_million = r.input_cost_per_token * 1000000 ∧
    r.output_cost_per_million = r.output_cost_per_token * 1000000 ∧
    (r.cache_read_cost_per_token = none ↔ r.cache_read_cost_per_million = none) ∧
    (∀ a b : ℚ, r.cache_read_cost_per_token = some a →
      r.cache_read_cost_per_million = some b → b = a * 1000000) ∧
    (r.cache_write_cost_per_token = none ↔ r.cache_write_cost_per_million = none) ∧
    (∀ a b : ℚ, r.cache_write_cost_per_token = some a →
      r.cache_write_cost_per_million = some b → b = a * 1000000) := by
  simp only [transformModel, Option.some_inj] at h
  subst h
  refine ⟨rfl, rfl, ?_, ?_, ?_, ?_⟩
  · cases hx : truthyNumOpt m.cache_read_input_token_cost <;> simp [hx]
  · intro a b ha hb
    cases hx : truthyNumOpt m.cache_read_input_token_cost <;> simp [hx] at ha hb
    rw [← ha, ← hb]
  · cases hx : truthyNumOpt m.cache_creation_input_token_cost <;> simp [hx]
  · intro a b ha hb
    cases hx : truthyNumOpt m.cache_creation_input_token_cost <;> simp [hx] at ha hb
    rw [← ha, ← hb]

/-- Closed instance of C4 at an upstream record with all four costs set. -/
theorem C4_pricing_round_trip_witness :
    (((transformModel "gpt-4"
        { litellm_provider := "openai", input_cost_per_token := some 3,
          output_cost_per_token := some 6, cache_read_input_token_cost := some 1,
          cache_creation_input_token_cost := some 2 } none none).getD
        dummyModel).input_cost_per_million =
      ((transformModel "gpt-4"
        { litellm_provider := "openai", input_cost_per_token := some 3,
          output_cost_per_token := some 6, cache_read_input_token_cost := some 1,
          cache_creation_input_token_cost := some 2 } none none).getD
        dummyModel).input_cost_per_token * 1000000) ∧
    (((transformModel "gpt-4"
        { litellm_provider := "openai", input_cost_per_token := some 3,
          output_cost_per_token := some 6, cache_read_input_token_cost := some 1,
          cache_creation_input_token_cost := some 2 } none none).getD
        dummyModel).cache_read_cost_per_token = none ↔
      ((transformModel "gpt-4"
        { litellm_provider := "openai", input_cost_per_token := some 3,
          output_cost_per_token := some 6, cache_read_input_token_cost := some 1,
          cache_creation_input_token_cost := some 2 } none none).getD
        dummyModel).cache_read_cost_per_million = none) :=
  ⟨(C4_pricing_round_trip "gpt-4" _ none none _ rfl).1,
   (C4_pricing_round_trip "gpt-4" _ none none _ rfl).2.2.1⟩

/-- C6: `transformModel` is a total function of its explicit inputs (the
embedding itself is the never-throws statement) and always returns a record,
never `null` — across its whole domain, on which the zod-required provider
tag is always present, so a record lacking the minimal required shape never
reaches it. -/
theorem C6_transformModel_total (name : String) (m : LiteLLMModel)
    (caps : Option (List String)) (tmap : Option (List (String × String))) :
    (transformModel name m caps tmap).isSome = true := by
  simp [transformModel]

/-- C10: an explicit upstream `0` in `max_input_tokens`, `max_output_tokens`
or either cache cost yields `null` on the canonical record (exactly as an
absent field would), while a `0` primary input/output per-token cost is kept
as `0`. -/
theorem C10_zero_collapsed_to_null (name : String) (m : LiteLLMModel)
    (caps : Option (List String)) (tmap : Option (List (String × String)))
    (r : Model) (h : transformModel name m caps tmap = some r) :
    (m.max_input_tokens = some 0 ∨ m.max_input_tokens = none →
      r.max_input_tokens = none) ∧
    (m.max_output_tokens = some 0 ∨ m.max_output_tokens = none →
      r.max_output_tokens = none) ∧
    (m.cache_read_input_token_cost = some 0 ∨ m.cache_read_input_token_cost = none →
      r.cache_read_cost_per_token = none ∧ r.cache_read_cost_per_million = none) ∧
    (m.cache_creation_input_token_cost = some 0 ∨
        m.cache_creation_input_token_cost = none →
      r.cache_write_cost_per_token = none ∧ r.cache_write_cost_per_million = none) ∧
    (m.input_cost_per_token = some 0 → r.input_cost_per_token = 0) ∧
    (m.output_cost_per_token = some 0 → r.output_cost_per_token = 0) := by
  simp only [transformModel, Option.some_inj] at h
  subst h
  refine ⟨?_, ?_, ?_, ?_, ?_, ?_⟩
  · rintro (hz | hz) <;> simp [truthyNumOpt, hz]
  · rintro (hz | hz) <;> simp [truthyNumOpt, hz]
  · rintro (hz | hz) <;> simp [truthyNumOpt, hz]
  · rintro (hz | hz) <;> simp [truthyNumOpt, hz]
  · intro hz; simp [hz]
  · intro hz; simp [hz]

/-- Closed instance of C10 at a record with zero token limits and costs. -/
theorem C10_zero_collapsed_to_null_witness :
    ((transformModel "gpt-4"
      { litellm_provider := "openai", max_input_tokens := some 0,
        input_cost_per_token := some 0, cache_read_input_token_cost := some 0 }
      none none).getD dummyModel).max_input_tokens = none ∧
    ((transformModel "gpt-4"
      { litellm_provider := "openai", max_input_tokens := some 0,
        input_cost_per_token := some 0, cache_read_input_token_cost := some 0 }
      none none).getD dummyModel).cache_read_cost_per_million = none ∧
    ((transformModel "gpt-4"
      { litellm_provider := "openai", max_input_tokens := some 0,
        input_cost_per_token := some 0, cache_read_input_token_cost := some 0 }
      none none).getD dummyModel).input_cost_per_token = 0 :=
  ⟨(C10_zero_collapsed_to_null "gpt-4" _ none none _ rfl).1 (Or.inl rfl),
   ((C10_zero_collapsed_to_null "gpt-4" _ none none _ rfl).2.2.1 (Or.inl rfl)).2,
   (C10_zero_collapsed_to_null "gpt-4" _ none none _ rfl).2.2.2.2.1 rfl⟩

/-! Lemmas about the discovered type vocabulary (for C5). -/
theorem alookup_append {β : Type} (l1 l2 : List (String × β)) (k : String) :
    alookup (l1 ++ l2) k =
      match alookup l1 k with
      | some v => some v
      | none => alookup l2 k := by
  induction l1 with
  | nil => rfl
  | cons kv rest ih =>
    obtain ⟨k2, v2⟩ := kv
    by_cases h : k2 = k <;> simp [alookup, h, ih]

theorem discoverTypeStep_preserves {acc : List (String × String)}
    {s : String} (x : String × LiteLLMModel)
    (h : (alookup acc s).isSome = true) :
    (alookup (discoverTypeStep acc x) s).isSome = true := by
  unfold discoverTypeStep
  cases x.2.mode with
  | none => exact h
  | some t =>
    by_cases ht : t = ""
    · simp [ht, h]
    · simp only [ht, if_false]
      cases hl : alookup acc t with
      | some v => exact h
      | none => rw [alookup_append]; cases hs : alookup acc s with
        | some v => simp
        | none => rw [hs] at h; simp at h

theorem discover_foldl_preserves {s : String} (models : List (String × LiteLLMModel))
    (acc : List (String × String)) (h : (alookup acc s).isSome = true) :
    (alookup (models.foldl discoverTypeStep acc) s).isSome = true := by
  induction models generalizing acc with
  | nil => exact h
  | cons x rest ih => exact ih _ (discoverTypeStep_preserves x h)

theorem discover_covers {s : String} (models : List (String × LiteLLMModel))
    (acc : List (String × String)) (nm : String) (mrec : LiteLLMModel)
    (hmem : (nm, mrec) ∈ models) (hmode : mrec.mode = some s) (hne : s ≠ "") :
    (alookup (models.foldl discoverTypeStep acc) s).isSome = true := by
  induction models generalizing acc with
  | nil => cases hmem
  | cons x rest ih =>
    rcases List.mem_cons.mp hmem with heq | htail
    · subst heq
      rw [List.foldl_cons]
      apply discover_foldl_preserves rest (discoverTypeStep acc (nm, mrec))
      unfold discoverTypeStep
      simp only [hmode, hne, if_false]
      cases hl : alookup acc s with
      | some v => simp [hl]
      | none => rw [alookup_append, hl]; simp [alookup]
    · exact ih _ htail

/-- C5 counterexample: a present but unrecognized source category is passed
through unchanged by `getModelType` (`modelTypeMap.get(mode) || mode`), not
defaulted to `"chat"` as the claim states. -/
theorem C5_model_type_default_counterexample :
    alookup (discoverModelTypes []) "video_understanding" = none ∧
    (transformModel "m" { litellm_provider := "x", mode := some "video_understanding" }
        none (some (discoverModelTypes []))).map Model.model_type =
      some "video_understanding" ∧
    (transformModel "m" { litellm_provider := "x", mode := some "video_understanding" }
        none (some (discoverModelTypes []))).map Model.model_type ≠ some "chat" := by
  refine ⟨by decide, by decide, by decide⟩

/-- C5 (amended): the transformer sets `model_type` to
`getModelType mode vocabulary`; that is the vocabulary's value for a
recognized category, `"chat"` for an absent or empty category, and the
category itself (not `"chat"`) for a present-but-unrecognized category — a
case that cannot arise in the pipeline, because the discovered vocabulary
contains every category seen in the dataset. -/
theorem C5_model_type_mapping_amended :
    (∀ (name : String) (m : LiteLLMModel) (caps : Option (List String))
       (tmap : List (String × String)) (r : Model),
       transformModel name m caps (some tmap) = some r →
       r.model_type = getModelType m.mode tmap) ∧
    (∀ tmap, getModelType none tmap = "chat") ∧
    (∀ tmap, getModelType (some "") tmap = "chat") ∧
    (∀ (v s : String) (tmap : List (String × String)), s ≠ "" → v ≠ "" →
       alookup tmap s = some v → getModelType (some s) tmap = v) ∧
    (∀ (s : String) (tmap : List (String × String)), s ≠ "" →
       alookup tmap s = none → getModelType (some s) tmap = s) ∧
    (∀ (models : List (String × LiteLLMModel)) (nm : String)
       (mrec : LiteLLMModel) (s : String),
       (nm, mrec) ∈ models → mrec.mode = some s → s ≠ "" →
       (alookup (discoverModelTypes models) s).isSome = true) := by
  refine ⟨?_, ?_, ?_, ?_, ?_, ?_⟩
  · intro name m caps tmap r h
    simp only [transformModel, Option.some_inj] at h
    subst h
    rfl
  · intro tmap; rfl
  · intro tmap; simp [getModelType]
  · intro v s tmap hs hv hl
    simp [getModelType, hs, hl, hv]
  · intro s tmap hs hl
    simp [getModelType, hs, hl]
  · intro models nm mrec s hmem hmode hne
    exact discover_covers models BASE_TYPE_MAP nm mrec hmem hmode hne

/-- Closed instances of C5's amended statement: the transformer at a seeded
category, the pass-through at an unrecognized one, and vocabulary coverage. -/
theorem C5_model_type_mapping_amended_witness :
    ((transformModel "m" { litellm_provider := "x", mode := some "embedding" }
        none (some BASE_TYPE_MAP)).getD dummyModel).model_type =
      getModelType (some "embedding") BASE_TYPE_MAP ∧
    getModelType (some "zz") [] = "zz" ∧
    (alookup (discoverModelTypes
        [("x", { litellm_provider := "p", mode := some "video_understanding" })])
      "video_understanding").isSome = true :=
  ⟨C5_model_type_mapping_amended.1 "m" _ none BASE_TYPE_MAP _ rfl,
   C5_model_type_mapping_amended.2.2.2.2.1 "zz" [] (by decide) rfl,
   C5_model_type_mapping_amended.2.2.2.2.2 _ "x" _ "video_understanding"
     (List.mem_singleton.mpr rfl) rfl (by decide)⟩

theorem lexLt_irrefl (a : List Char) : lexLt a a = false := by
  induction a with
  | nil => rfl
  | cons c rest ih => simp [lexLt, ih]

theorem lexLt_asymm {a b : List Char} (h1 : lexLt a b = true) (h2 : lexLt b a = true) :
    False := by
  induction a generalizing b with
  | nil => cases b <;> simp [lexLt] at h1 h2
  | cons c rest ih =>
    cases b with
    | nil => simp [lexLt] at h1
    | cons d bs =>
      by_cases hcd : c = d
      · subst hcd
        simp only [lexLt, if_pos rfl] at h1 h2
        exact ih h1 h2
      · simp only [lexLt, if_neg hcd, if_neg (Ne.symm hcd), decide_eq_true_eq] at h1 h2
        exact absurd h2 (lt_asymm h1)

theorem lexLt_trans {a b c : List Char} (h1 : lexLt a b = true) (h2 : lexLt b c = true) :
    lexLt a c = true := by
  induction a generalizing b c with
  | nil =>
    cases b with
    | nil => simp [lexLt] at h1
    | cons d bs => cases c with
      | nil => simp [lexLt] at h2
      | cons e cs => simp [lexLt]
  | cons x xs ih =>
    cases b with
    | nil => simp [lexLt] at h1
    | cons d bs =>
      cases c with
      | nil => simp [lexLt] at h2
      | cons e cs =>
        by_cases hxd : x = d <;> by_cases hde : d = e
        · subst hxd; subst hde
          simp only [lexLt, if_pos rfl] at h1 h2 ⊢
          exact ih h1 h2
        · subst hxd
          simp only [lexLt, if_pos rfl] at h1
          simp only [lexLt, if_neg hde, decide_eq_true_eq] at h2
          simp [lexLt, hde, h2]
        · subst hde
          simp only [lexLt, if_neg hxd, decide_eq_true_eq] at h1
          simp [lexLt, hxd, h1]
        · simp only [lexLt, if_neg hxd, decide_eq_true_eq] at h1
          simp only [lexLt, if_neg hde, decide_eq_true_eq] at h2
          have hxe : x < e := lt_trans h1 h2
          simp [lexLt, ne_of_lt hxe, hxe]

theorem lexLt_connex {a b : List Char} (h : a ≠ b) :
    lexLt a b = true ∨ lexLt b a = true := by
  induction a generalizing b with
  | nil => cases b with
    | nil => exact absurd rfl h
    | cons d bs => left; rfl
  | cons c rest ih =>
    cases b with
    | nil => right; rfl
    | cons d bs =>
      by_cases hcd : c = d
      · subst hcd
        have hne : rest ≠ bs := fun he => h (he ▸ rfl)
        rcases ih hne with hl | hl
        · left; simp [lexLt, hl]
        · right; simp [lexLt, hl]
      · rcases lt_trichotomy c d with hlt | heq | hgt
        · left; simp [lexLt, hcd, hlt]
        · exact absurd heq hcd
        · right; simp [lexLt, Ne.symm hcd, hgt]

theorem strLt_asymm {a b : String} (h1 : strLt a b = true) (h2 : strLt b a = true) :
    False := lexLt_asymm h1 h2

theorem strLt_trans {a b c : String} (h1 : strLt a b = true) (h2 : strLt b c = true) :
    strLt a c = true := lexLt_trans h1 h2

theorem strLt_connex {a b : String} (h : a ≠ b) : strLt a b = true ∨ strLt b a = true := by
  apply lexLt_connex
  intro he
  apply h
  cases a; cases b
  exact congrArg String.mk he

theorem insertSorted_perm {α : Type} (le : α → α → Bool) (x : α) (l : List α) :
    (insertSorted le x l).Perm (x :: l) := by
  induction l with
  | nil => exact List.Perm.refl _
  | cons y ys ih =>
    by_cases h : le x y = true
    · simp [insertSorted, h]
    · simp only [insertSorted, h, Bool.false_eq_true, if_false]
      exact (ih.cons y).trans (List.Perm.swap x y ys)

theorem insertionSort_perm {α : Type} (le : α → α → Bool) (l : List α) :
    (insertionSort le l).Perm l := by
  induction l with
  | nil => exact List.Perm.refl _
  | cons x xs ih => exact (insertSorted_perm le x (insertionSort le xs)).trans (ih.cons x)

theorem mem_insertSorted {α : Type} {le : α → α → Bool} {x z : α} {l : List α}
    (h : z ∈ insertSorted le x l) : z = x ∨ z ∈ l :=
  List.mem_cons.mp ((insertSorted_perm le x l).mem_iff.mp h)

theorem pairwise_insertSorted {α : Type} {le : α → α → Bool}
    (htot : ∀ a b, le a b = true ∨ le b a = true)
    (htr : ∀ a b c, le a b = true → le b c = true → le a c = true)
    {x : α} {l : List α} (h : l.Pairwise (fun a b => le a b = true)) :
    (insertSorted le x l).Pairwise (fun a b => le a b = true) := by
  induction l with
  | nil => simp [insertSorted]
  | cons y ys ih =>
    rcases List.pairwise_cons.mp h with ⟨hy, hys⟩
    by_cases hxy : le x y = true
    · simp only [insertSorted, hxy, if_true]
      refine List.pairwise_cons.mpr ⟨?_, h⟩
      intro z hz
      rcases List.mem_cons.mp hz with rfl | hz2
      · exact hxy
      · exact htr x y z hxy (hy z hz2)
    · have hyx : le y x = true := (htot x y).resolve_left hxy
      simp only [insertSorted, hxy, Bool.false_eq_true, if_false]
      refine List.pairwise_cons.mpr ⟨?_, ih hys⟩
      intro z hz
      rcases mem_insertSorted hz with rfl | hz2
      · exact hyx
      · exact hy z hz2

theorem pairwise_insertionSort {α : Type} {le : α → α → Bool}
    (htot : ∀ a b, le a b = true ∨ le b a = true)
    (htr : ∀ a b c, le a b = true → le b c = true → le a c = true)
    (l : List α) :
    (insertionSort le l).Pairwise (fun a b => le a b = true) := by
  induction l with
  | nil => simp [insertionSort]
  | cons x xs ih => exact pairwise_insertSorted htot htr ih

theorem strNotLt_cases {x y : String} (h : strLt x y = false) :
    x = y ∨ strLt y x = true := by
  by_cases he : x = y
  · exact Or.inl he
  · rcases strLt_connex he with hl | hl
    · rw [hl] at h; cases h
    · exact Or.inr hl

theorem strLe_total (a b : String) : strLe a b = true ∨ strLe b a = true := by
  unfold strLe
  by_cases h : strLt b a = true
  · right
    by_cases h2 : strLt a b = true
    · exact absurd (strLt_asymm h h2) not_false
    · simp [h2]
  · left; simp [h]

theorem strLt_irrefl (a : String) : strLt a a = false := lexLt_irrefl a.data

theorem strLe_trans {a b c : String} (h1 : strLe a b = true) (h2 : strLe b c = true) :
    strLe a c = true := by
  unfold strLe at h1 h2 ⊢
  rw [Bool.not_eq_true'] at h1 h2 ⊢
  by_contra hca0
  have hca : strLt c a = true := by
    cases hx : strLt c a
    · exact absurd hx hca0
    · rfl
  rcases strNotLt_cases h1 with he | hl
  · rcases strNotLt_cases h2 with he2 | hl2
    · subst he; subst he2
      rw [strLt_irrefl] at hca
      cases hca
    · subst he
      exact strLt_asymm hl2 hca
  · rcases strNotLt_cases h2 with he2 | hl2
    · subst he2
      exact strLt_asymm hl hca
    · exact strLt_asymm (strLt_trans hl hl2) hca

theorem modelLe_total (a b : Model) : modelLe a b = true ∨ modelLe b a = true := by
  unfold modelLe
  by_cases hp : a.provider_id = b.provider_id
  · rw [if_pos hp, if_pos hp.symm]
    exact strLe_total _ _
  · rw [if_neg hp, if_neg (Ne.symm hp)]
    exact strLt_connex hp

theorem modelLe_trans (a b c : Model) (h1 : modelLe a b = true) (h2 : modelLe b c = true) :
    modelLe a c = true := by
  unfold modelLe at h1 h2 ⊢
  by_cases hab : a.provider_id = b.provider_id <;>
    by_cases hbc : b.provider_id = c.provider_id
  · rw [if_pos hab] at h1; rw [if_pos hbc] at h2
    rw [if_pos (hab.trans hbc)]
    exact strLe_trans h1 h2
  · rw [if_pos hab] at h1; rw [if_neg hbc] at h2
    rw [if_neg (hab ▸ hbc), hab]
    exact h2
  · rw [if_neg hab] at h1; rw [if_pos hbc] at h2
    rw [if_neg (hbc ▸ hab), ← hbc]
    exact h1
  · rw [if_neg hab] at h1; rw [if_neg hbc] at h2
    have hac : strLt a.provider_id c.provider_id = true := strLt_trans h1 h2
    have hne : a.provider_id ≠ c.provider_id := by
      intro he
      rw [he] at h1
      exact strLt_asymm h1 h2
    rw [if_neg hne]
    exact hac

theorem entryLe_total (a b : String × Model) : entryLe a b = true ∨ entryLe b a = true :=
  modelLe_total a.2 b.2

theorem entryLe_trans (a b c : String × Model) (h1 : entryLe a b = true)
    (h2 : entryLe b c = true) : entryLe a c = true :=
  modelLe_trans a.2 b.2 c.2 h1 h2

theorem modelIdLe_total (a b : Model) : modelIdLe a b = true ∨ modelIdLe b a = true :=
  strLe_total _ _

theorem modelIdLe_trans (a b c : Model) (h1 : modelIdLe a b = true)
    (h2 : modelIdLe b c = true) : modelIdLe a c = true :=
  strLe_trans h1 h2

theorem provEntryLe_total (a b : String × List Model) :
    provEntryLe a b = true ∨ provEntryLe b a = true := strLe_total _ _

theorem provEntryLe_trans (a b c : String × List Model) (h1 : provEntryLe a b = true)
    (h2 : provEntryLe b c = true) : provEntryLe a c = true := strLe_trans h1 h2

/-! Lemmas about `setKV`, the transform fold, and the provider grouping. -/
theorem alookup_isSome_iff_mem {β : Type} (l : List (String × β)) (k : String) :
    (alookup l k).isSome = true ↔ k ∈ l.map Prod.fst := by
  induction l with
  | nil => simp [alookup]
  | cons kv rest ih =>
    obtain ⟨k2, v2⟩ := kv
    by_cases h : k2 = k
    · subst h; simp [alookup]
    · simp only [alookup, h, if_false, List.map_cons, List.mem_cons]
      rw [ih]
      constructor
      · exact Or.inr
      · rintro (he | hm)
        · exact absurd he.symm h
        · exact hm

theorem setKV_map_fst {β : Type} (l : List (String × β)) (k : String) (v : β) :
    (setKV l k v).map Prod.fst =
      if (alookup l k).isSome then l.map Prod.fst else l.map Prod.fst ++ [k] := by
  induction l with
  | nil => simp [setKV, alookup]
  | cons kv rest ih =>
    obtain ⟨k2, v2⟩ := kv
    by_cases h : k2 = k
    · simp [setKV, alookup, h]
    · simp only [setKV, h, if_false, alookup, List.map_cons, ih]
      by_cases hs : (alookup rest k).isSome = true <;> simp [h, hs]

theorem setKV_keys_nodup {β : Type} {l : List (String × β)} {k : String} {v : β}
    (h : (l.map Prod.fst).Nodup) : ((setKV l k v).map Prod.fst).Nodup := by
  rw [setKV_map_fst]
  by_cases hs : (alookup l k).isSome = true
  · simp [hs, h]
  · have hnm : k ∉ l.map Prod.fst := fun hm =>
      hs ((alookup_isSome_iff_mem l k).mpr hm)
    simp [hs, List.nodup_append, h, hnm]

theorem setKV_forall {β : Type} {P : String × β → Prop} {l : List (String × β)}
    {k : String} {v : β} (hl : ∀ kv ∈ l, P kv) (hkv : P (k, v)) :
    ∀ kv ∈ setKV l k v, P kv := by
  induction l with
  | nil => simpa [setKV] using hkv
  | cons kv2 rest ih =>
    obtain ⟨k2, v2⟩ := kv2
    by_cases h : k2 = k
    · subst h
      simp only [setKV, if_pos rfl]
      intro kv hm
      rcases List.mem_cons.mp hm with rfl | hm2
      · exact hkv
      · exact hl kv (List.mem_cons_of_mem _ hm2)
    · simp only [setKV, h, if_false]
      intro kv hm
      rcases List.mem_cons.mp hm with rfl | hm2
      · exact hl _ (List.mem_cons_self _ _)
      · exact ih (fun kv3 hm3 => hl kv3 (List.mem_cons_of_mem _ hm3)) kv hm2

theorem buildTransformed_aux_nodup (caps : List String) (tmap : List (String × String))
    (models : List (String × LiteLLMModel)) (acc : List (String × Model))
    (h : (acc.map Prod.fst).Nodup) :
    ((models.foldl (transformStep caps tmap) acc).map Prod.fst).Nodup := by
  induction models generalizing acc with
  | nil => exact h
  | cons x rest ih =>
    rw [List.foldl_cons]
    apply ih
    unfold transformStep
    cases transformModel x.1 x.2 (some caps) (some tmap) with
    | none => exact h
    | some t => exact setKV_keys_nodup h

theorem buildTransformed_aux_keys (caps : List String) (tmap : List (String × String))
    (models : List (String × LiteLLMModel)) (acc : List (String × Model))
    (h : ∀ kv ∈ acc, kv.1 = kv.2.model_id) :
    ∀ kv ∈ models.foldl (transformStep caps tmap) acc, kv.1 = kv.2.model_id := by
  induction models generalizing acc with
  | nil => exact h
  | cons x rest ih =>
    rw [List.foldl_cons]
    apply ih
    unfold transformStep
    cases transformModel x.1 x.2 (some caps) (some tmap) with
    | none => exact h
    | some t => exact setKV_forall h rfl

theorem setKV_flatten_perm {acc : List (String × List Model)} {pid : String}
    {l : List Model} (m : Model) (h : alookup acc pid = some l) :
    ((setKV acc pid (l ++ [m])).map Prod.snd).flatten.Perm
      ((acc.map Prod.snd).flatten ++ [m]) := by
  induction acc with
  | nil => simp [alookup] at h
  | cons kv rest ih =>
    obtain ⟨k2, l2⟩ := kv
    by_cases hk : k2 = pid
    · subst hk
      simp only [alookup, eq_self_iff_true, if_true, Option.some_inj] at h
      subst h
      simp only [setKV, eq_self_iff_true, if_true, List.map_cons, List.flatten_cons]
      rw [List.append_assoc, List.append_assoc]
      exact List.Perm.append_left l2 List.perm_append_comm
    · simp only [alookup, hk, if_false] at h
      simp only [setKV, hk, if_false, List.map_cons, List.flatten_cons]
      rw [List.append_assoc]
      exact List.Perm.append_left l2 (ih h)

theorem addToProvider_flatten_perm (acc : List (String × List Model)) (m : Model) :
    ((addToProvider acc m).map Prod.snd).flatten.Perm
      ((acc.map Prod.snd).flatten ++ [m]) := by
  unfold addToProvider
  cases h : alookup acc m.provider_id with
  | some l => exact setKV_flatten_perm m h
  | none => simp

theorem foldl_addToProvider_perm (list : List Model) (acc : List (String × List Model)) :
    (((list.foldl addToProvider acc).map Prod.snd).flatten).Perm
      ((acc.map Prod.snd).flatten ++ list) := by
  induction list generalizing acc with
  | nil => simp
  | cons m rest ih =>
    rw [List.foldl_cons]
    refine (ih (addToProvider acc m)).trans ?_
    have h2 := (addToProvider_flatten_perm acc m).append_right rest
    rw [List.append_assoc] at h2
    exact h2.trans (List.Perm.refl _)

theorem flatten_map_sortBuckets_perm (l : List (String × List Model)) :
    (((l.map (fun p => (p.1, insertionSort modelIdLe p.2))).map Prod.snd).flatten).Perm
      ((l.map Prod.snd).flatten) := by
  induction l with
  | nil => exact List.Perm.refl _
  | cons p rest ih =>
    simp only [List.map_cons, List.flatten_cons]
    exact (insertionSort_perm modelIdLe p.2).append ih

/-- C1: in every artifact set built by `buildArtifactsCore`, the flattened
`byProvider` buckets are a permutation of `list` (so the three content views
agree as sets), `map`'s values are exactly `list`, `map` has no duplicate
keys, every `map` key equals its record's `model_id`, every `byProvider`
bucket is sorted by `model_id`, and `list` is sorted by
`(provider_id, model_id)` — with respect to the embedded code-point order. -/
theorem C1_artifact_agreement (sourceUrl generated_at : String) (etag : Option String)
    (models : List (String × LiteLLMModel)) :
    (buildArtifactsCore sourceUrl generated_at etag models).modelsList =
      (buildArtifactsCore sourceUrl generated_at etag models).modelsMap.map Prod.snd ∧
    ((((buildArtifactsCore sourceUrl generated_at etag models).modelsByProvider.map
        Prod.snd).flatten).Perm
      (buildArtifactsCore sourceUrl generated_at etag models).modelsList) ∧
    ((buildArtifactsCore sourceUrl generated_at etag models).modelsMap.map
      Prod.fst).Nodup ∧
    ((buildArtifactsCore sourceUrl generated_at etag models).modelsMap.Forall
      (fun kv => kv.1 = kv.2.model_id)) ∧
    ((buildArtifactsCore sourceUrl generated_at etag models).modelsByProvider.Forall
      (fun pv => pv.2.Pairwise (fun a b => modelIdLe a b = true))) ∧
    (buildArtifactsCore sourceUrl generated_at etag models).modelsList.Pairwise
      (fun a b => modelLe a b = true) := by
  refine ⟨rfl, ?_, ?_, ?_, ?_, ?_⟩
  · show ((insertionSort provEntryLe _).map Prod.snd).flatten.Perm _
    refine (((insertionSort_perm provEntryLe _).map Prod.snd).flatten).trans ?_
    refine (flatten_map_sortBuckets_perm _).trans ?_
    have h := foldl_addToProvider_perm
      ((insertionSort entryLe (buildTransformed models (discoverCapabilities models)
        (discoverModelTypes models))).map Prod.snd) []
    simpa using h
  · show ((insertionSort entryLe _).map Prod.fst).Nodup
    have hperm := (insertionSort_perm entryLe (buildTransformed models
      (discoverCapabilities models) (discoverModelTypes models))).map Prod.fst
    exact hperm.symm.nodup
      (buildTransformed_aux_nodup _ _ models [] (by simp))
  · refine List.forall_iff_forall_mem.mpr ?_
    intro kv hm
    have hperm := insertionSort_perm entryLe (buildTransformed models
      (discoverCapabilities models) (discoverModelTypes models))
    exact buildTransformed_aux_keys _ _ models [] (by simp) kv (hperm.mem_iff.mp hm)
  · refine List.forall_iff_forall_mem.mpr ?_
    intro pv hm
    have hperm := insertionSort_perm provEntryLe
      (((insertionSort entryLe (buildTransformed models (discoverCapabilities models)
        (discoverModelTypes models))).map Prod.snd).foldl addToProvider [] |>.map
        (fun p => (p.1, insertionSort modelIdLe p.2)))
    have hm2 := hperm.mem_iff.mp hm
    rcases List.mem_map.mp hm2 with ⟨p, _, rfl⟩
    exact pairwise_insertionSort modelIdLe_total modelIdLe_trans p.2
  · show ((insertionSort entryLe _).map Prod.snd).Pairwise _
    rw [List.pairwise_map]
    exact pairwise_insertionSort entryLe_total entryLe_trans _

theorem readManifest_kvSet_artifact (kv : KVStore) (v : String) (kind : ArtifactKind)
    (x : KVValue) : readManifest (kvSet kv (.artifact v kind) x) = readManifest kv := by
  unfold readManifest kvSet
  simp

/-- C3: during a publish, the manifest write is the last step: if any of the
four per-version artifact writes fails, no manifest record is produced and
the stored manifest (latest pointer and versions log) is unchanged; a
manifest is produced only after all four artifact writes succeeded, and it
points at the new version. -/
theorem C3_manifest_write_is_last (beh : KVBehavior) (kv : KVStore)
    (artifacts : BuiltArtifacts) (now : String) :
    (¬(beh.putOk (.artifact artifacts.version .map) = true ∧
       beh.putOk (.artifact artifacts.version .list) = true ∧
       beh.putOk (.artifact artifacts.version .providers) = true ∧
       beh.putOk (.artifact artifacts.version .metadata) = true) →
      (writeArtifactsToKV beh kv artifacts now).2 = none ∧
      readManifest (writeArtifactsToKV beh kv artifacts now).1 = readManifest kv) ∧
    (∀ m : Manifest, (writeArtifactsToKV beh kv artifacts now).2 = some m →
      (beh.putOk (.artifact artifacts.version .map) = true ∧
       beh.putOk (.artifact artifacts.version .list) = true ∧
       beh.putOk (.artifact artifacts.version .providers) = true ∧
       beh.putOk (.artifact artifacts.version .metadata) = true) ∧
      m.latest = some artifacts.version) := by
  by_cases h1 : beh.putOk (.artifact artifacts.version .map) = true
  · by_cases h2 : beh.putOk (.artifact artifacts.version .list) = true
    · by_cases h3 : beh.putOk (.artifact artifacts.version .providers) = true
      · by_cases h4 : beh.putOk (.artifact artifacts.version .metadata) = true
        · constructor
          · intro hno; exact absurd ⟨h1, h2, h3, h4⟩ hno
          · intro m hm
            refine ⟨⟨h1, h2, h3, h4⟩, ?_⟩
            by_cases h5 : beh.putOk KVKey.manifest = true
            · simp only [writeArtifactsToKV, h1, h2, h3, h4, h5, Bool.not_true,
                Bool.false_eq_true, if_false, Option.some_inj] at hm
              rw [← hm]
            · simp only [writeArtifactsToKV, h1, h2, h3, h4,
                Bool.not_eq_true'] at hm
              rw [Bool.not_eq_true] at h5
              simp only [h5, Bool.not_false, if_true] at hm
              cases hm
        · rw [Bool.not_eq_true] at h4
          constructor
          · intro _
            simp only [writeArtifactsToKV, h1, h2, h3, h4, Bool.not_true,
              Bool.not_false, Bool.false_eq_true, if_false, if_true]
            exact ⟨trivial, by
              rw [readManifest_kvSet_artifact, readManifest_kvSet_artifact,
                readManifest_kvSet_artifact]⟩
          · intro m hm
            simp only [writeArtifactsToKV, h1, h2, h3, h4, Bool.not_true,
              Bool.not_false, Bool.false_eq_true, if_false, if_true] at hm
            cases hm
      · rw [Bool.not_eq_true] at h3
        constructor
        · intro _
          simp only [writeArtifactsToKV, h1, h2, h3, Bool.not_true,
            Bool.not_false, Bool.false_eq_true, if_false, if_true]
          exact ⟨trivial, by
            rw [readManifest_kvSet_artifact, readManifest_kvSet_artifact]⟩
        · intro m hm
          simp only [writeArtifactsToKV, h1, h2, h3, Bool.not_true,
            Bool.not_false, Bool.false_eq_true, if_false, if_true] at hm
          cases hm
    · rw [Bool.not_eq_true] at h2
      constructor
      · intro _
        simp only [writeArtifactsToKV, h1, h2, Bool.not_true,
          Bool.not_false, Bool.false_eq_true, if_false, if_true]
        exact ⟨trivial, by rw [readManifest_kvSet_artifact]⟩
      · intro m hm
        simp only [writeArtifactsToKV, h1, h2, Bool.not_true,
          Bool.not_false, Bool.false_eq_true, if_false, if_true] at hm
        cases hm
  · rw [Bool.not_eq_true] at h1
    constructor
    · intro _
      simp only [writeArtifactsToKV, h1, Bool.not_false, if_true]
      exact ⟨trivial, trivial⟩
    · intro m hm
      simp only [writeArtifactsToKV, h1, Bool.not_false, if_true] at hm
      cases hm

/-- Closed instance of C3: with the `list` artifact write failing, no
manifest is produced and the stored manifest is untouched. -/
theorem C3_manifest_write_is_last_witness :
    (writeArtifactsToKV
      ⟨fun k => !(k == KVKey.artifact "20240101000000Z" ArtifactKind.list)⟩
      (fun _ => none) emptyArtifacts "t").2 = none ∧
    readManifest (writeArtifactsToKV
      ⟨fun k => !(k == KVKey.artifact "20240101000000Z" ArtifactKind.list)⟩
      (fun _ => none) emptyArtifacts "t").1 = readManifest (fun _ => none) :=
  (C3_manifest_write_is_last
    ⟨fun k => !(k == KVKey.artifact "20240101000000Z" ArtifactKind.list)⟩
    (fun _ => none) emptyArtifacts "t").1
    (by intro h; exact absurd h.2.1 (by decide))

/-- A cache hit returns immediately with no state change and no durable-store
access (the hot path of src/src/data-store.ts:72-75). -/
theorem getFromCacheOrKV_hit (stat : ArtifactKind → ArtifactValue)
    (st2 : ReadState) (name : ArtifactKind) (v : ArtifactValue)
    (h : st2.cache name = some v) :
    getFromCacheOrKV stat st2 name = ⟨some v, st2, false⟩ := by
  simp only [getFromCacheOrKV, h]

/-- C2: with an empty cache entry, a read falls through to the bundled static
snapshot when no manifest (or no KV binding) exists — never failing — and,
with a populated durable store, the first read returns the stored value and
warms the cache so that a subsequent read is served from the cache without
any durable-store access. -/
theorem C2_read_tier_fallthrough (stat : ArtifactKind → ArtifactValue)
    (st : ReadState) (name : ArtifactKind) :
    (st.cache name = none → getLatestVersion st = none →
      (getFromCacheOrKV stat st name).value = some (stat name) ∧
      (getFromCacheOrKV stat st name).state = st) ∧
    (∀ (kv : KVStore) (version : String) (v : ArtifactValue),
      st.cache name = none → st.kv = some kv →
      getLatestVersion st = some version →
      kv (KVKey.artifact version name) = some (KVValue.art v) →
      (getFromCacheOrKV stat st name).value = some v ∧
      (getFromCacheOrKV stat st name).state.cache name = some v ∧
      (getFromCacheOrKV stat (getFromCacheOrKV stat st name).state name).value = some v ∧
      (getFromCacheOrKV stat (getFromCacheOrKV stat st name).state name).kvAccessed
        = false ∧
      (getFromCacheOrKV stat (getFromCacheOrKV stat st name).state name).state =
        (getFromCacheOrKV stat st name).state) ∧
    ((getFromCacheOrKV stat st name).value).isSome = true := by
  refine ⟨?_, ?_, ?_⟩
  · intro hc hv
    simp only [getFromCacheOrKV, hc, hv]
    exact ⟨trivial, trivial⟩
  · intro kv version v hc hkv hver hart
    have hload : loadFromKV st.kv version name = some v := by
      simp only [loadFromKV, hkv]
      rw [hart]
    have h1 : getFromCacheOrKV stat st name =
        ⟨some v,
         { st with cache := fun k => if k = name then some v else st.cache k },
         true⟩ := by
      simp only [getFromCacheOrKV, hc, hver, hload]
    have hcache : (getFromCacheOrKV stat st name).state.cache name = some v := by
      rw [h1]
      simp
    have h2 : getFromCacheOrKV stat (getFromCacheOrKV stat st name).state name =
        ⟨some v, (getFromCacheOrKV stat st name).state, false⟩ := by
      conv_lhs => rw [getFromCacheOrKV_hit stat _ name v hcache]
    exact ⟨by rw [h1], hcache, by rw [h2], by rw [h2], by rw [h2]⟩
  · cases hc : st.cache name with
    | some cached => simp [getFromCacheOrKV, hc]
    | none =>
      cases hv : getLatestVersion st with
      | none => simp [getFromCacheOrKV, hc, hv]
      | some version =>
        cases hl : loadFromKV st.kv version name with
        | some kvVal => simp [getFromCacheOrKV, hc, hv, hl]
        | none => simp [getFromCacheOrKV, hc, hv, hl]

/-- Closed instance of C2: fallback on a fully empty state, and cache warm
plus cache-only second read on a populated store. -/
theorem C2_read_tier_fallthrough_witness :
    (getFromCacheOrKV (fun _ => .listArt []) ⟨fun _ => none, none⟩
      ArtifactKind.list).value = some (.listArt []) ∧
    (getFromCacheOrKV (fun _ => .metadataArt ⟨"s", "g", 0, "1.0.0"⟩)
      ⟨fun _ => none, some witnessKV⟩ ArtifactKind.list).value =
      some (.listArt []) ∧
    (getFromCacheOrKV (fun _ => .metadataArt ⟨"s", "g", 0, "1.0.0"⟩)
      (getFromCacheOrKV (fun _ => .metadataArt ⟨"s", "g", 0, "1.0.0"⟩)
        ⟨fun _ => none, some witnessKV⟩ ArtifactKind.list).state
      ArtifactKind.list).kvAccessed = false :=
  ⟨((C2_read_tier_fallthrough (fun _ => .listArt []) ⟨fun _ => none, none⟩
      ArtifactKind.list).1 rfl rfl).1,
   (((C2_read_tier_fallthrough (fun _ => .metadataArt ⟨"s", "g", 0, "1.0.0"⟩)
      ⟨fun _ => none, some witnessKV⟩ ArtifactKind.list).2.1 witnessKV "v"
      (.listArt []) rfl rfl rfl rfl)).1,
   (((C2_read_tier_fallthrough (fun _ => .metadataArt ⟨"s", "g", 0, "1.0.0"⟩)
      ⟨fun _ => none, some witnessKV⟩ ArtifactKind.list).2.1 witnessKV "v"
      (.listArt []) rfl rfl rfl rfl)).2.2.2.1⟩

/-- C7: for a scheduled run or a non-forced admin refresh, a cheap change
token matching the manifest's recorded token leaves the durable store and the
cache exactly as they were (no new version, `latest` unchanged); and a failed
probe makes the run proceed to the full build-and-publish path. -/
theorem C7_change_detection_short_circuit (build : BuildOutcome) (beh : KVBehavior)
    (kv : KVStore) (cache : ArtifactKind → Option ArtifactValue) (now : String) :
    (∀ e : Option String, etagMatches e (readManifest kv) = true →
      scheduledRun (.ok e) build beh kv cache now = (kv, cache)) ∧
    (scheduledRun .fail build beh kv cache now = buildAndPublish build beh kv cache now) ∧
    (∀ e : Option String, etagMatches e (readManifest kv) = true →
      adminRefresh false (.ok e) build beh kv cache now = (kv, cache)) ∧
    (adminRefresh false .fail build beh kv cache now =
      buildAndPublish build beh kv cache now) := by
  refine ⟨?_, rfl, ?_, rfl⟩
  · intro e he
    simp only [scheduledRun]
    rw [if_pos he]
  · intro e he
    simp only [adminRefresh, Bool.false_eq_true, if_false]
    rw [if_pos he]

/-- Closed instance of C7: a matching token skips the build on both triggers. -/
theorem C7_change_detection_short_circuit_witness :
    scheduledRun (.ok (some "abc")) .fail ⟨fun _ => true⟩ witnessKV2
      (fun _ => none) "t" = (witnessKV2, fun _ => none) ∧
    adminRefresh false (.ok (some "abc")) .fail ⟨fun _ => true⟩ witnessKV2
      (fun _ => none) "t" = (witnessKV2, fun _ => none) :=
  ⟨(C7_change_detection_short_circuit .fail ⟨fun _ => true⟩ witnessKV2
      (fun _ => none) "t").1 (some "abc") rfl,
   (C7_change_detection_short_circuit .fail ⟨fun _ => true⟩ witnessKV2
      (fun _ => none) "t").2.2.1 (some "abc") rfl⟩

end ModelDB
